import Mathlib

/-!
Verification of the Labyrinth Legends tournament contract.

This file is a shallow embedding of the Rust sources of the
labyrinth_tournament contract (lib.rs, state.rs, contract.rs, service.rs)
together with proofs about the embedded operations.

Modelling conventions:
* Machine integers (u32, u64) are modelled as Nat.  All counters in the
  contract are monotone and bounded by the number of executed operations,
  so their unsigned arithmetic never wraps in any feasible execution; the
  one routine whose intermediate arithmetic the specification explicitly
  calls overflow-safe, Difficulty.calculate_xp, is additionally modelled
  with explicit wrap-around (mod 2 to the 64) and proved equal to the
  exact version for all inputs within field widths.
* Timestamps are Nat microseconds.
* The typed key/value Store maps (MapView) are association lists with
  replace-on-insert semantics (upsertKV / lookupKV); RegisterView slots
  are plain fields of the state record.
* Wallet addresses are lists of byte values; the transport identity
  (AccountOwner) distinguishes the 20-byte address form the contract
  recognizes from every other form.
* The fallible async Store reads in the source (for example
  self.state.players.get(..).await.ok().flatten()) always succeed in the
  view model, so they are modelled as total lookups returning Option.
-/

/-- A 20-byte wallet address, modelled as a list of byte values. -/
abbrev Wallet := List Nat

/-- The transport-level caller identity.  The contract pattern-matches only
on the 20-byte address form (AccountOwner::Address20); every other form is
collapsed into the address32 constructor. -/
inductive AccountOwner where
  | address20 (addr : Wallet)
  | address32 (addr : List Nat)
deriving DecidableEq, Repr

/-- Tournament status lifecycle (lib.rs). -/
inductive TournamentStatus where
  | active
  | ended
deriving DecidableEq, Repr

/-- Difficulty levels (lib.rs). -/
inductive Difficulty where
  | easy
  | medium
  | hard
  | nightmare
deriving DecidableEq, Repr

/-- Base XP per difficulty (lib.rs, Difficulty::base_xp). -/
def Difficulty.base_xp : Difficulty → Nat
  | .easy => 75
  | .medium => 100
  | .hard => 125
  | .nightmare => 150

/-- Tournament configuration and state (lib.rs). -/
structure Tournament where
  id : Nat
  title : String
  description : String
  maze_seed : String
  difficulty : Difficulty
  start_time : Nat
  end_time : Nat
  status : TournamentStatus
  participant_count : Nat
  total_runs : Nat
  xp_reward_pool : Nat
  created_at : Nat
deriving DecidableEq, Repr

/-- Player stats within a specific tournament (lib.rs). -/
structure TournamentPlayer where
  wallet_address : Wallet
  username : String
  best_time_ms : Nat
  best_score : Nat
  total_runs : Nat
  total_xp_earned : Nat
  last_run_at : Nat
  joined_at : Nat
deriving DecidableEq, Repr

/-- Global player profile (lib.rs). -/
structure Player where
  wallet_address : Wallet
  username : String
  total_xp : Nat
  total_runs : Nat
  tournaments_played : Nat
  tournaments_won : Nat
  best_time_ms : Option Nat
  registered_at : Nat
  last_active : Nat
deriving DecidableEq, Repr

/-- Single game run record (lib.rs). -/
structure GameRun where
  id : Nat
  tournament_id : Nat
  wallet_address : Wallet
  username : String
  time_ms : Nat
  score : Nat
  coins : Nat
  deaths : Nat
  completed : Bool
  xp_earned : Nat
  created_at : Nat
deriving DecidableEq, Repr

/-- Leaderboard entry (lib.rs). -/
structure LeaderboardEntry where
  rank : Nat
  wallet_address : Wallet
  username : String
  best_time_ms : Nat
  best_score : Nat
  total_runs : Nat
  total_xp : Nat
deriving DecidableEq, Repr

/-- Tournament reward for a top player (lib.rs). -/
structure TournamentReward where
  tournament_id : Nat
  wallet_address : Wallet
  rank : Nat
  xp_amount : Nat
  claimed : Bool
deriving DecidableEq, Repr

/-- UNCLAIMED best time used when a TournamentPlayer is created
(u64::MAX in the source). -/
def u64Max : Nat := 2 ^ 64 - 1

/-- XP earned for a run (lib.rs, Difficulty::calculate_xp), in exact
unsigned arithmetic.  Guards in the source prevent every subtraction from
underflowing, so Nat subtraction coincides with u64 subtraction here. -/
def Difficulty.calculate_xp (d : Difficulty) (time_ms : Nat) (deaths : Nat)
    (completed : Bool) : Nat :=
  let base := d.base_xp
  let completion_bonus := if completed then base else 0
  let time_secs := time_ms / 1000
  let time_bonus :=
    if completed ∧ time_secs < 120 then (base * (120 - time_secs)) / 120 else 0
  let death_penalty := min (deaths * 10) 50
  let death_multiplier := 100 - death_penalty
  let raw_xp := (base + completion_bonus + time_bonus) * death_multiplier / 100
  max 10 raw_xp

/-- XP calculation with explicit u64 wrap-around at every addition and
multiplication, to model the machine arithmetic of the source exactly.
deaths is a u32 widened to u64 before the multiplication, as in the
source (deaths as u64 * 10). -/
def Difficulty.calculate_xp_u64 (d : Difficulty) (time_ms : Nat) (deaths : Nat)
    (completed : Bool) : Nat :=
  let base := d.base_xp
  let completion_bonus := if completed then base else 0
  let time_secs := time_ms / 1000
  let time_bonus :=
    if completed ∧ time_secs < 120 then (base * (120 - time_secs)) % 2 ^ 64 / 120
    else 0
  let death_penalty := min (deaths * 10 % 2 ^ 64) 50
  let death_multiplier := 100 - death_penalty
  let raw_xp :=
    ((base + completion_bonus) % 2 ^ 64 + time_bonus) % 2 ^ 64
      * death_multiplier % 2 ^ 64 / 100
  max 10 raw_xp

/-- The five-step XP formula exactly as the specification words it
(spec section 4.1), in exact unsigned integer arithmetic. -/
def calculate_xpSpec (d : Difficulty) (time_ms : Nat) (deaths : Nat)
    (completed : Bool) : Nat :=
  let base := d.base_xp
  let completion_bonus := if completed then base else 0
  let time_secs := time_ms / 1000
  let time_bonus :=
    if completed ∧ time_secs < 120 then base * (120 - time_secs) / 120 else 0
  let death_penalty := min (deaths * 10) 50
  let death_multiplier := 100 - death_penalty
  let raw := (base + completion_bonus + time_bonus) * death_multiplier / 100
  max 10 raw

/-- Lower-case hex digit. -/
def hexDigit (n : Nat) : Char :=
  if n < 10 then Char.ofNat (48 + n) else Char.ofNat (97 + (n - 10))

/-- Lower-case hex encoding of one byte, as produced by hex::encode. -/
def byteToHex (b : Nat) : String :=
  String.mk [hexDigit (b / 16 % 16), hexDigit (b % 16)]

/-- Default username synthesized on first contact
(contract.rs, get_or_create_player):
the string Player_ followed by the hex encoding of the first 4 bytes. -/
def defaultUsername (w : Wallet) : String :=
  "Player_" ++ String.join ((w.take 4).map byteToHex)

/-- Association-list lookup, the model of MapView::get. -/
def lookupKV {K V : Type} [DecidableEq K] : List (K × V) → K → Option V
  | [], _ => none
  | (k', v) :: rest, k => if k' = k then some v else lookupKV rest k

/-- Association-list insert-or-replace, the model of MapView::insert. -/
def upsertKV {K V : Type} [DecidableEq K] : List (K × V) → K → V → List (K × V)
  | [], k, v => [(k, v)]
  | (k', v') :: rest, k, v =>
      if k' = k then (k, v) :: rest else (k', v') :: upsertKV rest k v

/-- Model of MapView::contains_key. -/
def containsKey {K V : Type} [DecidableEq K] (m : List (K × V)) (k : K) : Bool :=
  (lookupKV m k).isSome

/-- The keys of an association list are pairwise distinct. -/
def KeysNodup {K V : Type} (m : List (K × V)) : Prop :=
  (m.map Prod.fst).Nodup

/-- The single cross-chain message variant Message::ApplyRun (lib.rs),
carried from submit_run to execute_message. -/
structure ApplyRunMessage where
  wallet_address : Wallet
  username : String
  tournament_id : Nat
  time_ms : Nat
  score : Nat
  coins : Nat
  deaths : Nat
  completed : Bool
deriving DecidableEq, Repr

/-- The operations of the contract (lib.rs, enum Operation). -/
inductive Operation where
  | registerPlayer (wallet_address : Wallet) (username : String)
  | submitRun (tournament_id time_ms score coins deaths : Nat) (completed : Bool)
  | createTournament (title description maze_seed : String)
      (difficulty : Difficulty) (duration_days xp_reward_pool : Nat)
  | endTournament (tournament_id : Nat)
  | claimReward (tournament_id : Nat)
  | bootstrapTournament
deriving DecidableEq, Repr

/-- The responses of the contract (lib.rs, enum Response). -/
inductive Response where
  | ok
  | playerRegistered (wallet_address : Wallet)
  | runSubmitted (run_id xp_earned : Nat) (new_best : Bool) (rank : Nat)
  | tournamentCreated (id : Nat) (maze_seed : String) (end_time : Nat)
  | tournamentEnded (id : Nat) (winner_count : Nat)
  | rewardClaimed (tournament_id xp_amount : Nat)
  | tournamentBootstrapped (id : Nat) (end_time : Nat) (already_existed : Bool)
  | error (message : String)
deriving DecidableEq, Repr

/-- Discriminator for the RunSubmitted response variant. -/
def Response.isRunSubmitted : Response → Bool
  | .runSubmitted _ _ _ _ => true
  | _ => false

/-- The root application state (state.rs, LabyrinthState).  RegisterView
slots are plain fields, MapView maps are association lists. -/
structure LabyrinthState where
  hub_chain_id : Option String
  next_tournament_id : Nat
  next_run_id : Nat
  signer_to_wallet : List (AccountOwner × Wallet)
  tournaments : List (Nat × Tournament)
  active_tournament_id : Option Nat
  active_tournament : Option Tournament
  players : List (Wallet × Player)
  username_to_wallet : List (String × Wallet)
  tournament_players : List ((Nat × Wallet) × TournamentPlayer)
  leaderboards : List (Nat × List LeaderboardEntry)
  runs : List (Nat × GameRun)
  recent_runs : List Nat
  rewards : List ((Nat × Wallet) × TournamentReward)
deriving DecidableEq, Repr

/-- The state of a freshly created chain before instantiation: every
register at its default, every map empty. -/
def emptyState : LabyrinthState where
  hub_chain_id := none
  next_tournament_id := 0
  next_run_id := 0
  signer_to_wallet := []
  tournaments := []
  active_tournament_id := none
  active_tournament := none
  players := []
  username_to_wallet := []
  tournament_players := []
  leaderboards := []
  runs := []
  recent_runs := []
  rewards := []

/-- Microseconds in one day (24 * 60 * 60 * 1_000_000). -/
def dayMicros : Nat := 24 * 60 * 60 * 1000000

/-- The tournament created at instantiation / bootstrap (contract.rs):
15-day default championship with a seed derived from the timestamp. -/
def defaultChampionship (now : Nat) : Tournament where
  id := 1
  title := "Labyrinth Legends Championship"
  description := "15-day tournament - Navigate the maze faster than anyone else!"
  maze_seed := "labyrinth_legends_" ++ toString (now / 1000000)
  difficulty := .medium
  start_time := now
  end_time := now + 15 * dayMicros
  status := .active
  participant_count := 0
  total_runs := 0
  xp_reward_pool := 10000
  created_at := now

/-- Contract::instantiate (contract.rs): set the hub chain id and the
counters and auto-create the 15-day tournament with id 1. -/
def instantiateState (hub : String) (now : Nat) : LabyrinthState :=
  let t := defaultChampionship now
  { emptyState with
      hub_chain_id := some hub
      next_tournament_id := 2
      next_run_id := 1
      recent_runs := []
      tournaments := upsertKV emptyState.tournaments 1 t
      active_tournament := some t
      leaderboards := upsertKV emptyState.leaderboards 1 []
      active_tournament_id := some 1 }

/-- Helper get_wallet_for_signer (contract.rs). -/
def get_wallet_for_signer (s : LabyrinthState) (signer : AccountOwner) :
    Option Wallet :=
  lookupKV s.signer_to_wallet signer

/-- Helper get_or_create_player (contract.rs).  Returns the player and the
updated state.  The default_username argument of the source is unused
there as well; the synthesized name always comes from the wallet bytes. -/
def get_or_create_player (signer : AccountOwner) (wallet : Wallet)
    (_default_username : String) (now : Nat) (s : LabyrinthState) :
    Player × LabyrinthState :=
  match lookupKV s.players wallet with
  | some player =>
      (player, { s with signer_to_wallet := upsertKV s.signer_to_wallet signer wallet })
  | none =>
      let username := defaultUsername wallet
      let player : Player :=
        { wallet_address := wallet
          username := username
          total_xp := 0
          total_runs := 0
          tournaments_played := 0
          tournaments_won := 0
          best_time_ms := none
          registered_at := now
          last_active := now }
      (player,
        { s with
            players := upsertKV s.players wallet player
            username_to_wallet := upsertKV s.username_to_wallet username wallet
            signer_to_wallet := upsertKV s.signer_to_wallet signer wallet })

/-- Operation handler register_player (contract.rs). -/
def register_player (signer : AccountOwner) (wallet_address : Wallet)
    (username : String) (now : Nat) (s : LabyrinthState) :
    LabyrinthState × Response :=
  if containsKey s.players wallet_address then
    ({ s with signer_to_wallet := upsertKV s.signer_to_wallet signer wallet_address },
      .playerRegistered wallet_address)
  else if containsKey s.username_to_wallet username then
    (s, .error "Username already taken")
  else
    let player : Player :=
      { wallet_address := wallet_address
        username := username
        total_xp := 0
        total_runs := 0
        tournaments_played := 0
        tournaments_won := 0
        best_time_ms := none
        registered_at := now
        last_active := now }
    ({ s with
        players := upsertKV s.players wallet_address player
        username_to_wallet := upsertKV s.username_to_wallet username wallet_address
        signer_to_wallet := upsertKV s.signer_to_wallet signer wallet_address },
      .playerRegistered wallet_address)

/-- Operation handler submit_run (contract.rs).  It resolves (or
auto-binds) the wallet, ensures a Player row exists, and ALWAYS defers the
actual run application by sending an ApplyRun message to the hub chain;
the response is Ok.  The third component is the sent message. -/
def submit_run_send (signer : AccountOwner) (wallet : Wallet)
    (tournament_id time_ms score coins deaths : Nat) (completed : Bool)
    (now : Nat) (s1 : LabyrinthState) :
    LabyrinthState × Response × Option ApplyRunMessage :=
  let (player, s2) := get_or_create_player signer wallet "" now s1
  let message : ApplyRunMessage :=
    { wallet_address := wallet
      username := player.username
      tournament_id := tournament_id
      time_ms := time_ms
      score := score
      coins := coins
      deaths := deaths
      completed := completed }
  (s2, .ok, some message)

def submit_run (signer : AccountOwner) (tournament_id time_ms score coins
    deaths : Nat) (completed : Bool) (now : Nat) (s : LabyrinthState) :
    LabyrinthState × Response × Option ApplyRunMessage :=
  match get_wallet_for_signer s signer with
  | some w =>
      submit_run_send signer w tournament_id time_ms score coins deaths
        completed now s
  | none =>
      match signer with
      | .address20 addr =>
          submit_run_send signer addr tournament_id time_ms score coins deaths
            completed now
            { s with signer_to_wallet := upsertKV s.signer_to_wallet signer addr }
      | _ => (s, .error "Player not registered. Call registerPlayer first.", none)

/-- Operation handler create_tournament (contract.rs).  Note that it
writes the tournaments map, the leaderboards map and the
active_tournament_id register, but NOT the active_tournament register. -/
def create_tournament (_creator : AccountOwner) (title description
    maze_seed : String) (difficulty : Difficulty) (duration_days
    xp_reward_pool : Nat) (now : Nat) (s : LabyrinthState) :
    LabyrinthState × Response :=
  let duration_micros := duration_days * dayMicros
  let end_time := now + duration_micros
  let id := s.next_tournament_id
  let tournament : Tournament :=
    { id := id
      title := title
      description := description
      maze_seed := maze_seed
      difficulty := difficulty
      start_time := now
      end_time := end_time
      status := .active
      participant_count := 0
      total_runs := 0
      xp_reward_pool := xp_reward_pool
      created_at := now }
  ({ s with
      next_tournament_id := id + 1
      tournaments := upsertKV s.tournaments id tournament
      leaderboards := upsertKV s.leaderboards id []
      active_tournament_id := some id },
    .tournamentCreated id maze_seed end_time)

/-- Reward percentage vector for the top five ranks (contract.rs). -/
def rewardPercentages : List Nat := [40, 25, 15, 12, 8]

/-- The reward-distribution loop of end_tournament (contract.rs):
iterate over the first entries of the frozen leaderboard with index i,
insert a TournamentReward with claimed = false, and on i = 0 increment
tournaments_won of that wallet's Player row when it exists.  Returns the
updated players map, the updated rewards map and the winner count. -/
def distributeRewards (tournament_id pool : Nat) :
    Nat → List LeaderboardEntry → List (Wallet × Player) →
    List ((Nat × Wallet) × TournamentReward) →
    List (Wallet × Player) × List ((Nat × Wallet) × TournamentReward) × Nat
  | _, [], players, rewards => (players, rewards, 0)
  | i, entry :: rest, players, rewards =>
      let xp_amount := pool * rewardPercentages.getD i 0 / 100
      let reward : TournamentReward :=
        { tournament_id := tournament_id
          wallet_address := entry.wallet_address
          rank := entry.rank
          xp_amount := xp_amount
          claimed := false }
      let rewards1 := upsertKV rewards (tournament_id, entry.wallet_address) reward
      let players1 :=
        if i = 0 then
          match lookupKV players entry.wallet_address with
          | some player =>
              upsertKV players entry.wallet_address
                { player with tournaments_won := player.tournaments_won + 1 }
          | none => players
        else players
      let r := distributeRewards tournament_id pool (i + 1) rest players1 rewards1
      (r.1, r.2.1, r.2.2 + 1)

/-- Operation handler end_tournament (contract.rs).  Permissionless; fails
when the tournament is missing, already ended, or not yet due.  On success
marks the tournament Ended, clears the active_tournament_id register when
it pointed at this tournament (the active_tournament register is NOT
touched), and distributes rewards over the top five leaderboard entries. -/
def end_tournament (_caller : AccountOwner) (tournament_id : Nat) (now : Nat)
    (s : LabyrinthState) : LabyrinthState × Response :=
  match lookupKV s.tournaments tournament_id with
  | none => (s, .error "Tournament not found")
  | some tournament =>
      if tournament.status = .ended then
        (s, .error "Tournament already ended")
      else if now < tournament.end_time then
        (s, .error ("Tournament cannot be finalized yet. Ends at timestamp "
          ++ toString tournament.end_time))
      else
        let ended := { tournament with status := TournamentStatus.ended }
        let new_active_id :=
          if s.active_tournament_id = some tournament_id then none
          else s.active_tournament_id
        let leaderboard := (lookupKV s.leaderboards tournament_id).getD []
        let r := distributeRewards tournament_id ended.xp_reward_pool 0
          (leaderboard.take 5) s.players s.rewards
        ({ s with
            tournaments := upsertKV s.tournaments tournament_id ended
            active_tournament_id := new_active_id
            players := r.1
            rewards := r.2.1 },
          .tournamentEnded tournament_id r.2.2)

/-- Operation handler claim_reward (contract.rs).  Flips the claimed flag
and credits the reward amount to the player's total_xp (when the Player
row exists). -/
def claim_reward (signer : AccountOwner) (tournament_id : Nat)
    (s : LabyrinthState) : LabyrinthState × Response :=
  match get_wallet_for_signer s signer with
  | none => (s, .error "Player not registered")
  | some wallet =>
      match lookupKV s.rewards (tournament_id, wallet) with
      | none => (s, .error "No reward found for this tournament")
      | some reward =>
          if reward.claimed then
            (s, .error "Reward already claimed")
          else
            let claimed := { reward with claimed := true }
            let new_players :=
              match lookupKV s.players wallet with
              | some player =>
                  upsertKV s.players wallet
                    { player with total_xp := player.total_xp + claimed.xp_amount }
              | none => s.players
            ({ s with
                rewards := upsertKV s.rewards (tournament_id, wallet) claimed
                players := new_players },
              .rewardClaimed tournament_id claimed.xp_amount)

/-- Operation handler bootstrap_tournament (contract.rs).  Idempotent
creation of tournament 1; when it already exists only the
active_tournament and active_tournament_id registers are re-published. -/
def bootstrap_tournament (now : Nat) (s : LabyrinthState) :
    LabyrinthState × Response :=
  match lookupKV s.tournaments 1 with
  | some existing =>
      ({ s with
          active_tournament := some existing
          active_tournament_id := some 1 },
        .tournamentBootstrapped 1 existing.end_time true)
  | none =>
      let t := defaultChampionship now
      ({ s with
          tournaments := upsertKV s.tournaments 1 t
          active_tournament := some t
          leaderboards := upsertKV s.leaderboards 1 []
          active_tournament_id := some 1
          next_tournament_id :=
            if s.next_tournament_id < 2 then 2 else s.next_tournament_id
          next_run_id := if s.next_run_id < 1 then 1 else s.next_run_id },
        .tournamentBootstrapped 1 t.end_time false)

/-- One pass of the in-place entry update loop of execute_message STEP 9
(contract.rs): update the first entry whose wallet matches, adopting a
lower best time and a higher best score and overwriting the totals;
report whether a matching entry was found. -/
def updateFirstEntry (wallet : Wallet) (tp : TournamentPlayer) :
    List LeaderboardEntry → List LeaderboardEntry × Bool
  | [] => ([], false)
  | entry :: rest =>
      if entry.wallet_address = wallet then
        ({ entry with
            best_time_ms := if tp.best_time_ms < entry.best_time_ms then
              tp.best_time_ms else entry.best_time_ms
            best_score := if tp.best_score > entry.best_score then
              tp.best_score else entry.best_score
            total_runs := tp.total_runs
            total_xp := tp.total_xp_earned } :: rest, true)
      else
        let (rest', found) := updateFirstEntry wallet tp rest
        (entry :: rest', found)

/-- Stable insertion of an entry into a list sorted by best_time_ms
ascending: the new entry goes after every entry with an equal or smaller
time. -/
def insertSorted (e : LeaderboardEntry) : List LeaderboardEntry →
    List LeaderboardEntry
  | [] => [e]
  | x :: xs =>
      if x.best_time_ms ≤ e.best_time_ms then x :: insertSorted e xs
      else e :: x :: xs

/-- Stable sort by best_time_ms ascending, the model of the source's
leaderboard.sort_by on best_time_ms (Rust sort_by is stable, and a stable
sort's output is uniquely determined by the key order). -/
def sortByTime (l : List LeaderboardEntry) : List LeaderboardEntry :=
  l.foldr insertSorted []

/-- Rank rewriting loop of execute_message STEP 9: entry at position j
(0-based) gets rank i + j + 1. -/
def assignRanksFrom (i : Nat) : List LeaderboardEntry → List LeaderboardEntry
  | [] => []
  | e :: rest => { e with rank := i + 1 } :: assignRanksFrom (i + 1) rest

/-- Full leaderboard update of execute_message STEP 9 (contract.rs):
update or append the entry for the wallet, stable-sort by best time,
rewrite ranks 1-based, keep the top 100. -/
def updateLeaderboard (wallet : Wallet) (username : String)
    (tp : TournamentPlayer) (lb : List LeaderboardEntry) :
    List LeaderboardEntry :=
  let (lb1, found) := updateFirstEntry wallet tp lb
  let lb2 :=
    if found then lb1
    else lb1 ++ [{ rank := 0
                   wallet_address := wallet
                   username := username
                   best_time_ms := tp.best_time_ms
                   best_score := tp.best_score
                   total_runs := tp.total_runs
                   total_xp := tp.total_xp_earned }]
  let lb3 := sortByTime lb2
  let lb4 := assignRanksFrom 0 lb3
  if lb4.length > 100 then lb4.take 100 else lb4

/-- Message handler execute_message for Message::ApplyRun (contract.rs).
All run-application state mutation happens here.  The message is dropped
(no state change, no error) when there is no active tournament in the
active_tournament register, when the register's tournament id differs
from the message's tournament id, when that tournament is not Active, or
when the clock reached its end time. -/
def execute_message (m : ApplyRunMessage) (now : Nat) (s : LabyrinthState) :
    LabyrinthState :=
  match s.active_tournament with
  | none => s
  | some tournament0 =>
      if tournament0.id ≠ m.tournament_id then s
      else if tournament0.status ≠ TournamentStatus.active then s
      else if now ≥ tournament0.end_time then s
      else
        let key := (m.tournament_id, m.wallet_address)
        let is_new_participant := ¬ (containsKey s.tournament_players key = true)
        let tournament :=
          { tournament0 with
              participant_count :=
                if is_new_participant then tournament0.participant_count + 1
                else tournament0.participant_count
              total_runs := tournament0.total_runs + 1 }
        let xp_earned :=
          tournament.difficulty.calculate_xp m.time_ms m.deaths m.completed
        let run_id := s.next_run_id
        let run : GameRun :=
          { id := run_id
            tournament_id := m.tournament_id
            wallet_address := m.wallet_address
            username := m.username
            time_ms := m.time_ms
            score := m.score
            coins := m.coins
            deaths := m.deaths
            completed := m.completed
            xp_earned := xp_earned
            created_at := now }
        let recent1 := run_id :: s.recent_runs
        let recent := if recent1.length > 100 then recent1.take 100 else recent1
        let tp0 :=
          match lookupKV s.tournament_players key with
          | some existing => existing
          | none =>
              { wallet_address := m.wallet_address
                username := m.username
                best_time_ms := u64Max
                best_score := 0
                total_runs := 0
                total_xp_earned := 0
                last_run_at := now
                joined_at := now }
        let tp : TournamentPlayer :=
          { tp0 with
              best_time_ms :=
                if m.completed ∧ m.time_ms < tp0.best_time_ms then m.time_ms
                else tp0.best_time_ms
              best_score :=
                if m.score > tp0.best_score then m.score else tp0.best_score
              total_runs := tp0.total_runs + 1
              total_xp_earned := tp0.total_xp_earned + xp_earned
              last_run_at := now }
        let player0 :=
          match lookupKV s.players m.wallet_address with
          | some existing => existing
          | none =>
              { wallet_address := m.wallet_address
                username := m.username
                total_xp := 0
                total_runs := 0
                tournaments_played := 0
                tournaments_won := 0
                best_time_ms := none
                registered_at := now
                last_active := now }
        let player : Player :=
          { player0 with
              total_xp := player0.total_xp + xp_earned
              total_runs := player0.total_runs + 1
              last_active := now
              tournaments_played :=
                if is_new_participant then player0.tournaments_played + 1
                else player0.tournaments_played
              best_time_ms :=
                if m.completed then
                  match player0.best_time_ms with
                  | some best =>
                      if m.time_ms < best then some m.time_ms else some best
                  | none => some m.time_ms
                else player0.best_time_ms }
        let lb := (lookupKV s.leaderboards m.tournament_id).getD []
        let lb' := updateLeaderboard m.wallet_address m.username tp lb
        { s with
            next_run_id := run_id + 1
            runs := upsertKV s.runs run_id run
            recent_runs := recent
            tournament_players := upsertKV s.tournament_players key tp
            players := upsertKV s.players m.wallet_address player
            leaderboards := upsertKV s.leaderboards m.tournament_id lb'
            active_tournament := some tournament
            tournaments := upsertKV s.tournaments m.tournament_id tournament }

/-- Dispatcher execute_operation (contract.rs): resolve the authenticated
signer (None yields the Not authenticated error) and route by operation.
The third component is the ApplyRun message sent, when any. -/
def execute_operation (signer : Option AccountOwner) (op : Operation)
    (now : Nat) (s : LabyrinthState) :
    LabyrinthState × Response × Option ApplyRunMessage :=
  match signer with
  | none => (s, .error "Not authenticated", none)
  | some sg =>
      match op with
      | .registerPlayer wallet username =>
          let r := register_player sg wallet username now s
          (r.1, r.2, none)
      | .submitRun tid time score coins deaths completed =>
          submit_run sg tid time score coins deaths completed now s
      | .createTournament title desc seed diff dur pool =>
          let r := create_tournament sg title desc seed diff dur pool now s
          (r.1, r.2, none)
      | .endTournament tid =>
          let r := end_tournament sg tid now s
          (r.1, r.2, none)
      | .claimReward tid =>
          let r := claim_reward sg tid s
          (r.1, r.2, none)
      | .bootstrapTournament =>
          let r := bootstrap_tournament now s
          (r.1, r.2, none)

/-- The fixed fallback tournament of the query service
(service.rs, get_default_tournament): constants for the February 2026
championship, NOT read from the store. -/
def getDefaultTournament : Tournament where
  id := 1
  title := "February 2026 Championship"
  description := "15-day tournament - fastest time wins!"
  maze_seed := "labyrinth-feb-2026"
  difficulty := .medium
  start_time := 1769904000000000
  end_time := 1769904000000000 + 15 * dayMicros
  status := .active
  participant_count := 0
  total_runs := 0
  xp_reward_pool := 10000
  created_at := 1769904000000000

/-- Read-only query active_tournament (service.rs): the stored tournament
under the active_tournament_id register when both exist, otherwise the
fixed default tournament. -/
def activeTournamentQuery (s : LabyrinthState) : Option Tournament :=
  match s.active_tournament_id with
  | some id =>
      match lookupKV s.tournaments id with
      | some t => some t
      | none => some getDefaultTournament
  | none => some getDefaultTournament

/-- Read-only query tournament(id) (service.rs): for id 1 fall back to the
fixed default tournament when the store has no row; other ids are plain
lookups. -/
def tournamentQuery (s : LabyrinthState) (id : Nat) : Option Tournament :=
  if id = 1 then
    match lookupKV s.tournaments id with
    | some t => some t
    | none => some getDefaultTournament
  else
    lookupKV s.tournaments id

/-- Sum of f over the values of an association list. -/
def sumBy {K V : Type} (m : List (K × V)) (f : V → Nat) : Nat :=
  (m.map fun kv => f kv.2).sum

/-- Total xp_earned over all GameRun rows of a wallet. -/
def sumRunXp (runs : List (Nat × GameRun)) (w : Wallet) : Nat :=
  sumBy runs fun r => if r.wallet_address = w then r.xp_earned else 0

/-- Total xp_amount over all TournamentReward rows distributed to a
wallet, claimed or not. -/
def sumRewardAll (rewards : List ((Nat × Wallet) × TournamentReward))
    (w : Wallet) : Nat :=
  sumBy rewards fun r => if r.wallet_address = w then r.xp_amount else 0

/-- Total xp_amount over the claimed TournamentReward rows of a wallet. -/
def sumRewardClaimed (rewards : List ((Nat × Wallet) × TournamentReward))
    (w : Wallet) : Nat :=
  sumBy rewards fun r =>
    if r.wallet_address = w then (if r.claimed then r.xp_amount else 0) else 0

/-- Ordering of leaderboard entries by best_time_ms ascending. -/
def TimeLe (a b : LeaderboardEntry) : Prop :=
  a.best_time_ms ≤ b.best_time_ms

/-- A leaderboard is sorted by best_time_ms ascending. -/
def SortedByTime (l : List LeaderboardEntry) : Prop :=
  l.Pairwise TimeLe

/-- Every entry's rank field equals its 1-based position. -/
def RanksDense (l : List LeaderboardEntry) : Prop :=
  ∀ i (h : i < l.length), (l.get ⟨i, h⟩).rank = i + 1

/-- The leaderboard invariant of the specification: at most 100 entries,
sorted ascending by best time, ranks dense 1..N. -/
def LBInv (l : List LeaderboardEntry) : Prop :=
  l.length ≤ 100 ∧ SortedByTime l ∧ RanksDense l

/-- Username uniqueness and index consistency: every Player row's username
points back to its wallet in the username index, and every index entry
points at a Player row carrying that username.  This implies at most one
wallet per username. -/
def UsernameConsistent (s : LabyrinthState) : Prop :=
  (∀ x ∈ s.players, lookupKV s.username_to_wallet x.2.username = some x.1) ∧
  (∀ y ∈ s.username_to_wallet,
    ∃ p, lookupKV s.players y.2 = some p ∧ p.username = y.1)

/-- The inductive invariant carried through every committed operation.
The time index t is the clock value of the last committed step; the
runtime clock is monotone (spec section 6), so later steps execute at
now ≥ t. -/
structure GoodState (s : LabyrinthState) (t : Nat) : Prop where
  players_nodup : KeysNodup s.players
  runs_fresh : ∀ x ∈ s.runs, x.1 < s.next_run_id
  tournaments_keyed : ∀ x ∈ s.tournaments, x.2.id = x.1
  tournaments_bounded : ∀ x ∈ s.tournaments, x.1 < s.next_tournament_id
  next_tid_ge : 2 ≤ s.next_tournament_id
  active_id_one : ∀ t0, s.active_tournament = some t0 → t0.id = 1
  active_sync : ∀ t0, s.active_tournament = some t0 →
    ∃ t1, lookupKV s.tournaments t0.id = some t1 ∧ t1.end_time = t0.end_time
  rewards_ended : ∀ x ∈ s.rewards,
    ∃ tr, lookupKV s.tournaments x.1.1 = some tr ∧
      tr.status = TournamentStatus.ended ∧ tr.end_time ≤ t
  rewards_keyed : ∀ x ∈ s.rewards, x.2.wallet_address = x.1.2
  runs_have_player : ∀ x ∈ s.runs,
    (lookupKV s.players x.2.wallet_address).isSome = true
  claimed_have_player : ∀ x ∈ s.rewards, x.2.claimed = true →
    (lookupKV s.players x.2.wallet_address).isSome = true
  bindings_have_player : ∀ x ∈ s.signer_to_wallet,
    (lookupKV s.players x.2).isSome = true
  xp_ledger : ∀ x ∈ s.players,
    x.2.total_xp = sumRunXp s.runs x.1 + sumRewardClaimed s.rewards x.1
  lb_inv : ∀ x ∈ s.leaderboards, LBInv x.2

/-- The committed states of the contract: instantiation at any timestamp,
followed by any sequence of operations (any signer) and message
deliveries (any ApplyRun message), under a monotone clock.  Message
contents are not restricted to messages actually sent, which only makes
the invariants below stronger. -/
inductive Reachable : LabyrinthState → Nat → Prop where
  | init (hub : String) (t0 : Nat) : Reachable (instantiateState hub t0) t0
  | step_op (s : LabyrinthState) (t t' : Nat) (sg : Option AccountOwner)
      (op : Operation) : Reachable s t → t ≤ t' →
      Reachable (execute_operation sg op t' s).1 t'
  | step_msg (s : LabyrinthState) (t t' : Nat) (m : ApplyRunMessage) :
      Reachable s t → t ≤ t' → Reachable (execute_message m t' s) t'

/-- A concrete all-zero 20-byte wallet. -/
def wA : Wallet := List.replicate 20 0

/-- A concrete wallet sharing its first 4 bytes with wA. -/
def wB : Wallet := [0, 0, 0, 0, 1] ++ List.replicate 15 0

/-- A third concrete wallet. -/
def wC : Wallet := [0, 0, 0, 0, 2] ++ List.replicate 15 0

/-- Signer in 20-byte address form for wA. -/
def sgA : AccountOwner := .address20 wA

/-- Signer in 20-byte address form for wB. -/
def sgB : AccountOwner := .address20 wB

/-- The state right after instantiation at time 0. -/
def baseState : LabyrinthState := instantiateState "hub" 0

/-- SubmitRun to the existing tournament 1 with every precondition met. -/
def c1Exec : LabyrinthState × Response × Option ApplyRunMessage :=
  execute_operation (some sgA) (.submitRun 1 60000 500 10 0 true) 1000 baseState

/-- SubmitRun naming a tournament id (999) for which no tournament
exists. -/
def c2Exec : LabyrinthState × Response × Option ApplyRunMessage :=
  execute_operation (some sgA) (.submitRun 999 60000 500 10 0 true) 1000 baseState

/-- The ApplyRun message sent by the submission of c3S1. -/
def c3Msg : ApplyRunMessage where
  wallet_address := wA
  username := "Player_00000000"
  tournament_id := 1
  time_ms := 60000
  score := 500
  coins := 10
  deaths := 0
  completed := true

/-- Trace state: after SubmitRun by wA at time 100. -/
def c3S1 : LabyrinthState :=
  (execute_operation (some sgA) (.submitRun 1 60000 500 10 0 true) 100 baseState).1

/-- Trace state: after delivering the ApplyRun message at time 200. -/
def c3S2 : LabyrinthState := execute_message c3Msg 200 c3S1

/-- Trace state: after EndTournament 1 at its end time. -/
def c3S3 : LabyrinthState :=
  (execute_operation (some sgA) (.endTournament 1) 1296000000000 c3S2).1

/-- Trace state: after ClaimReward 1 by wA. -/
def c3S4 : LabyrinthState :=
  (execute_operation (some sgA) (.claimReward 1) 1296000000000 c3S3).1

/-- Trace state: a second auto-registration by a wallet whose first 4
bytes coincide with wA's. -/
def c4S2 : LabyrinthState :=
  (execute_operation (some sgB) (.submitRun 1 70000 400 5 0 true) 150 c3S1).1

/-- CreateTournament with duration_days = 0. -/
def c6Exec : LabyrinthState × Response × Option ApplyRunMessage :=
  execute_operation (some sgA) (.createTournament "t" "d" "seed" .medium 0 1000)
    50 baseState

/-- A concrete Active tournament due at time 1000 with pool 10000. -/
def c7T : Tournament where
  id := 1
  title := "T"
  description := "d"
  maze_seed := "s"
  difficulty := .medium
  start_time := 0
  end_time := 1000
  status := .active
  participant_count := 3
  total_runs := 3
  xp_reward_pool := 10000
  created_at := 0

/-- Concrete rank-1 leaderboard entry (wallet wA). -/
def c7E1 : LeaderboardEntry where
  rank := 1
  wallet_address := wA
  username := "a"
  best_time_ms := 60000
  best_score := 500
  total_runs := 1
  total_xp := 250

/-- Concrete rank-2 leaderboard entry (wallet wB). -/
def c7E2 : LeaderboardEntry where
  rank := 2
  wallet_address := wB
  username := "b"
  best_time_ms := 70000
  best_score := 400
  total_runs := 1
  total_xp := 250

/-- Concrete rank-3 leaderboard entry (wallet wC). -/
def c7E3 : LeaderboardEntry where
  rank := 3
  wallet_address := wC
  username := "c"
  best_time_ms := 80000
  best_score := 300
  total_runs := 1
  total_xp := 250

/-- The Player row of wA in the c7 scenario. -/
def c7PA : Player where
  wallet_address := wA
  username := "a"
  total_xp := 250
  total_runs := 1
  tournaments_played := 1
  tournaments_won := 0
  best_time_ms := some 60000
  registered_at := 0
  last_active := 0

/-- A concrete state holding tournament 1 (due, pool 10000) with a
3-entry leaderboard. -/
def c7S : LabyrinthState :=
  { emptyState with
      next_tournament_id := 2
      tournaments := [(1, c7T)]
      leaderboards := [(1, [c7E1, c7E2, c7E3])]
      players := [(wA, c7PA)] }

/-- The leaderboard of tournament 1 after the c3 run was applied. -/
def c8lb : List LeaderboardEntry := (lookupKV c3S2.leaderboards 1).getD []

/-- Trace state: EndTournament 1 right at its end time, from the
instantiation state. -/
def c9S : LabyrinthState :=
  (execute_operation (some sgA) (.endTournament 1) 1296000000000 baseState).1

/-- Trace state: after CreateTournament at time 50 from the instantiation
state (the new tournament gets id 2). -/
def c10S1 : LabyrinthState :=
  (execute_operation (some sgA)
    (.createTournament "t" "d" "s" .easy 1 500) 50 baseState).1

/-- An ApplyRun message naming the tournament created in c10S1. -/
def c10M : ApplyRunMessage where
  wallet_address := wA
  username := "u"
  tournament_id := 2
  time_ms := 1000
  score := 10
  coins := 0
  deaths := 0
  completed := true

/-! Generic lemmas about association-list maps. -/

theorem lookupKV_nil {K V : Type} [DecidableEq K] (k : K) :
    lookupKV ([] : List (K × V)) k = none := rfl

theorem lookupKV_cons_eq {K V : Type} [DecidableEq K] {k' k : K} (v : V)
    (tl : List (K × V)) (h : k' = k) : lookupKV ((k', v) :: tl) k = some v := by
  simp [lookupKV, h]

theorem lookupKV_cons_ne {K V : Type} [DecidableEq K] {k' k : K} (v : V)
    (tl : List (K × V)) (h : k' ≠ k) :
    lookupKV ((k', v) :: tl) k = lookupKV tl k := by
  simp [lookupKV, h]

theorem upsertKV_cons_eq {K V : Type} [DecidableEq K] {k' k : K} (v' v : V)
    (tl : List (K × V)) (h : k' = k) :
    upsertKV ((k', v') :: tl) k v = (k, v) :: tl := by
  simp [upsertKV, h]

theorem upsertKV_cons_ne {K V : Type} [DecidableEq K] {k' k : K} (v' v : V)
    (tl : List (K × V)) (h : k' ≠ k) :
    upsertKV ((k', v') :: tl) k v = (k', v') :: upsertKV tl k v := by
  simp [upsertKV, h]

theorem lookupKV_upsert_self {K V : Type} [DecidableEq K] (m : List (K × V))
    (k : K) (v : V) : lookupKV (upsertKV m k v) k = some v := by
  induction m with
  | nil => simp [upsertKV, lookupKV]
  | cons hd tl ih =>
      obtain ⟨k', v'⟩ := hd
      by_cases h : k' = k
      · rw [upsertKV_cons_eq v' v tl h, lookupKV_cons_eq v tl rfl]
      · rw [upsertKV_cons_ne v' v tl h, lookupKV_cons_ne v' (upsertKV tl k v) h, ih]

theorem lookupKV_upsert_ne {K V : Type} [DecidableEq K] (m : List (K × V))
    (k k' : K) (v : V) (h : k' ≠ k) :
    lookupKV (upsertKV m k v) k' = lookupKV m k' := by
  induction m with
  | nil =>
      show lookupKV [(k, v)] k' = none
      rw [lookupKV_cons_ne v [] (fun hh => h hh.symm), lookupKV_nil]
  | cons hd tl ih =>
      obtain ⟨k'', v''⟩ := hd
      by_cases h2 : k'' = k
      · subst h2
        rw [upsertKV_cons_eq v'' v tl rfl,
          lookupKV_cons_ne v tl (fun hh => h hh.symm),
          lookupKV_cons_ne v'' tl (fun hh => h hh.symm)]
      · rw [upsertKV_cons_ne v'' v tl h2]
        by_cases h3 : k'' = k'
        · rw [lookupKV_cons_eq v'' (upsertKV tl k v) h3, lookupKV_cons_eq v'' tl h3]
        · rw [lookupKV_cons_ne v'' (upsertKV tl k v) h3,
            lookupKV_cons_ne v'' tl h3, ih]

theorem upsertKV_of_lookup_none {K V : Type} [DecidableEq K]
    {m : List (K × V)} {k : K} (v : V) (h : lookupKV m k = none) :
    upsertKV m k v = m ++ [(k, v)] := by
  induction m with
  | nil => simp [upsertKV]
  | cons hd tl ih =>
      obtain ⟨k', v'⟩ := hd
      by_cases h2 : k' = k
      · rw [lookupKV_cons_eq v' tl h2] at h
        exact absurd h (by simp)
      · rw [lookupKV_cons_ne v' tl h2] at h
        rw [upsertKV_cons_ne v' v tl h2, ih h]
        simp

theorem lookupKV_isSome_of_mem {K V : Type} [DecidableEq K]
    {m : List (K × V)} {k : K} {v : V} (h : (k, v) ∈ m) :
    (lookupKV m k).isSome = true := by
  induction m with
  | nil => simp at h
  | cons hd tl ih =>
      obtain ⟨k', v'⟩ := hd
      by_cases h2 : k' = k
      · rw [lookupKV_cons_eq v' tl h2]
        rfl
      · rw [lookupKV_cons_ne v' tl h2]
        rcases List.mem_cons.mp h with h3 | h3
        · exact absurd (congrArg Prod.fst h3.symm) h2
        · exact ih h3

theorem mem_of_lookupKV_eq {K V : Type} [DecidableEq K]
    {m : List (K × V)} {k : K} {v : V} (h : lookupKV m k = some v) :
    (k, v) ∈ m := by
  induction m with
  | nil => simp [lookupKV] at h
  | cons hd tl ih =>
      obtain ⟨k', v'⟩ := hd
      by_cases h2 : k' = k
      · subst h2
        rw [lookupKV_cons_eq v' tl rfl] at h
        simp only [Option.some.injEq] at h
        simp [h]
      · rw [lookupKV_cons_ne v' tl h2] at h
        exact List.mem_cons_of_mem _ (ih h)

theorem lookupKV_eq_none_of_not_mem_keys {K V : Type} [DecidableEq K]
    {m : List (K × V)} {k : K} (h : k ∉ m.map Prod.fst) :
    lookupKV m k = none := by
  induction m with
  | nil => rfl
  | cons hd tl ih =>
      obtain ⟨k', v'⟩ := hd
      simp only [List.map_cons, List.mem_cons] at h
      push_neg at h
      rw [lookupKV_cons_ne v' tl (fun hh => h.1 hh.symm)]
      exact ih h.2

theorem mem_upsertKV {K V : Type} [DecidableEq K]
    {m : List (K × V)} {k : K} {v : V} {x : K × V}
    (h : x ∈ upsertKV m k v) : x = (k, v) ∨ x ∈ m := by
  induction m with
  | nil => simpa [upsertKV] using h
  | cons hd tl ih =>
      obtain ⟨k', v'⟩ := hd
      by_cases h2 : k' = k
      · rw [upsertKV_cons_eq v' v tl h2] at h
        rcases List.mem_cons.mp h with h3 | h3
        · exact Or.inl h3
        · exact Or.inr (List.mem_cons_of_mem _ h3)
      · rw [upsertKV_cons_ne v' v tl h2] at h
        rcases List.mem_cons.mp h with h3 | h3
        · exact Or.inr (List.mem_cons.mpr (Or.inl h3))
        · rcases ih h3 with h4 | h4
          · exact Or.inl h4
          · exact Or.inr (List.mem_cons_of_mem _ h4)

theorem mem_keys_upsertKV {K V : Type} [DecidableEq K]
    {m : List (K × V)} {k k'' : K} {v : V} :
    k'' ∈ (upsertKV m k v).map Prod.fst ↔ k'' = k ∨ k'' ∈ m.map Prod.fst := by
  induction m with
  | nil => simp [upsertKV]
  | cons hd tl ih =>
      obtain ⟨k', v'⟩ := hd
      by_cases h2 : k' = k
      · subst h2
        rw [upsertKV_cons_eq v' v tl rfl]
        simp only [List.map_cons, List.mem_cons]
        tauto
      · rw [upsertKV_cons_ne v' v tl h2]
        simp only [List.map_cons, List.mem_cons, ih]
        tauto

theorem keysNodup_upsert {K V : Type} [DecidableEq K]
    {m : List (K × V)} (k : K) (v : V) (h : KeysNodup m) :
    KeysNodup (upsertKV m k v) := by
  induction m with
  | nil => simp [upsertKV, KeysNodup]
  | cons hd tl ih =>
      obtain ⟨k', v'⟩ := hd
      simp only [KeysNodup, List.map_cons, List.nodup_cons] at h
      by_cases h2 : k' = k
      · subst h2
        rw [upsertKV_cons_eq v' v tl rfl]
        simp only [KeysNodup, List.map_cons, List.nodup_cons]
        exact ⟨h.1, h.2⟩
      · rw [upsertKV_cons_ne v' v tl h2]
        simp only [KeysNodup, List.map_cons, List.nodup_cons]
        refine ⟨?_, ih h.2⟩
        intro hmem
        rcases mem_keys_upsertKV.mp hmem with h3 | h3
        · exact h2 h3
        · exact h.1 h3

theorem mem_upsertKV_iff {K V : Type} [DecidableEq K]
    {m : List (K × V)} {k : K} {v : V} {x : K × V} (hn : KeysNodup m) :
    x ∈ upsertKV m k v ↔ x = (k, v) ∨ (x ∈ m ∧ x.1 ≠ k) := by
  induction m with
  | nil => simp [upsertKV]
  | cons hd tl ih =>
      obtain ⟨k', v'⟩ := hd
      simp only [KeysNodup, List.map_cons, List.nodup_cons] at hn
      by_cases h2 : k' = k
      · subst h2
        rw [upsertKV_cons_eq v' v tl rfl]
        simp only [List.mem_cons]
        constructor
        · rintro (h3 | h3)
          · exact Or.inl h3
          · refine Or.inr ⟨Or.inr h3, ?_⟩
            intro hx
            exact hn.1 (hx ▸ List.mem_map_of_mem Prod.fst h3)
        · rintro (h3 | ⟨h3 | h3, h4⟩)
          · exact Or.inl h3
          · exact absurd (congrArg Prod.fst h3) h4
          · exact Or.inr h3
      · rw [upsertKV_cons_ne v' v tl h2]
        simp only [List.mem_cons, ih hn.2]
        constructor
        · rintro (h3 | h3 | ⟨h3, h4⟩)
          · refine Or.inr ⟨Or.inl h3, ?_⟩
            rw [h3]
            exact h2
          · exact Or.inl h3
          · exact Or.inr ⟨Or.inr h3, h4⟩
        · rintro (h3 | ⟨h3 | h3, h4⟩)
          · exact Or.inr (Or.inl h3)
          · exact Or.inl h3
          · exact Or.inr (Or.inr ⟨h3, h4⟩)

theorem lookupKV_isSome_upsert {K V : Type} [DecidableEq K]
    {m : List (K × V)} {k' : K} (k : K) (v : V)
    (h : (lookupKV m k').isSome = true) :
    (lookupKV (upsertKV m k v) k').isSome = true := by
  by_cases h2 : k' = k
  · subst h2
    simp [lookupKV_upsert_self]
  · rw [lookupKV_upsert_ne m k k' v h2]
    exact h

/-! Lemmas about sums over association lists. -/

theorem sumBy_nil {K V : Type} (f : V → Nat) : sumBy ([] : List (K × V)) f = 0 := rfl

theorem sumBy_cons {K V : Type} (k : K) (v : V) (m : List (K × V))
    (f : V → Nat) : sumBy ((k, v) :: m) f = f v + sumBy m f := by
  simp [sumBy]

theorem sumBy_append {K V : Type} (m m' : List (K × V)) (f : V → Nat) :
    sumBy (m ++ m') f = sumBy m f + sumBy m' f := by
  simp [sumBy]

theorem sumBy_upsert_lookup_none {K V : Type} [DecidableEq K]
    {m : List (K × V)} {k : K} (v : V) (f : V → Nat)
    (h : lookupKV m k = none) :
    sumBy (upsertKV m k v) f = sumBy m f + f v := by
  rw [upsertKV_of_lookup_none v h, sumBy_append]
  simp [sumBy]

theorem sumBy_upsert_zero {K V : Type} [DecidableEq K]
    {m : List (K × V)} {k : K} {v : V} (v' : V) (f : V → Nat)
    (h : lookupKV m k = some v) (hz : f v = 0) :
    sumBy (upsertKV m k v') f = sumBy m f + f v' := by
  induction m with
  | nil => simp [lookupKV] at h
  | cons hd tl ih =>
      obtain ⟨k'', v''⟩ := hd
      by_cases h2 : k'' = k
      · subst h2
        rw [lookupKV_cons_eq v'' tl rfl] at h
        simp only [Option.some.injEq] at h
        rw [upsertKV_cons_eq v'' v' tl rfl, sumBy_cons, sumBy_cons, h, hz]
        omega
      · rw [lookupKV_cons_ne v'' tl h2] at h
        rw [upsertKV_cons_ne v'' v' tl h2, sumBy_cons, sumBy_cons, ih h]
        omega

theorem sumBy_upsert_congr {K V : Type} [DecidableEq K]
    {m : List (K × V)} {k : K} {v : V} (v' : V) (f : V → Nat)
    (h : lookupKV m k = some v) (he : f v = f v') :
    sumBy (upsertKV m k v') f = sumBy m f := by
  induction m with
  | nil => simp [lookupKV] at h
  | cons hd tl ih =>
      obtain ⟨k'', v''⟩ := hd
      by_cases h2 : k'' = k
      · subst h2
        rw [lookupKV_cons_eq v'' tl rfl] at h
        simp only [Option.some.injEq] at h
        rw [upsertKV_cons_eq v'' v' tl rfl, sumBy_cons, sumBy_cons, h, he]
      · rw [lookupKV_cons_ne v'' tl h2] at h
        rw [upsertKV_cons_ne v'' v' tl h2, sumBy_cons, sumBy_cons, ih h]

theorem sumBy_eq_zero {K V : Type} {m : List (K × V)} {f : V → Nat}
    (h : ∀ x ∈ m, f x.2 = 0) : sumBy m f = 0 := by
  induction m with
  | nil => rfl
  | cons hd tl ih =>
      obtain ⟨k, v⟩ := hd
      rw [sumBy_cons, h (k, v) (List.mem_cons_self _ tl),
        ih (fun x hx => h x (List.mem_cons_of_mem _ hx))]

/-! Lemmas about the leaderboard sorting and ranking machinery. -/

theorem mem_insertSorted {e x : LeaderboardEntry} {l : List LeaderboardEntry}
    (h : x ∈ insertSorted e l) : x = e ∨ x ∈ l := by
  induction l with
  | nil => simpa [insertSorted] using h
  | cons hd tl ih =>
      by_cases h2 : hd.best_time_ms ≤ e.best_time_ms
      · rw [show insertSorted e (hd :: tl) = hd :: insertSorted e tl from by
          simp [insertSorted, h2]] at h
        rcases List.mem_cons.mp h with h3 | h3
        · exact Or.inr (List.mem_cons.mpr (Or.inl h3))
        · rcases ih h3 with h4 | h4
          · exact Or.inl h4
          · exact Or.inr (List.mem_cons_of_mem _ h4)
      · rw [show insertSorted e (hd :: tl) = e :: hd :: tl from by
          simp [insertSorted, h2]] at h
        rcases List.mem_cons.mp h with h3 | h3
        · exact Or.inl h3
        · exact Or.inr h3

theorem sortedByTime_insertSorted (e : LeaderboardEntry)
    {l : List LeaderboardEntry} (h : SortedByTime l) :
    SortedByTime (insertSorted e l) := by
  induction l with
  | nil => simp [insertSorted, SortedByTime]
  | cons hd tl ih =>
      rcases List.pairwise_cons.mp h with ⟨hhd, htl⟩
      by_cases h2 : hd.best_time_ms ≤ e.best_time_ms
      · rw [show insertSorted e (hd :: tl) = hd :: insertSorted e tl from by
          simp [insertSorted, h2]]
        refine List.pairwise_cons.mpr ⟨?_, ih htl⟩
        intro y hy
        rcases mem_insertSorted hy with h3 | h3
        · rw [h3]
          exact h2
        · exact hhd y h3
      · rw [show insertSorted e (hd :: tl) = e :: hd :: tl from by
          simp [insertSorted, h2]]
        refine List.pairwise_cons.mpr ⟨?_, h⟩
        intro y hy
        rcases List.mem_cons.mp hy with h3 | h3
        · rw [h3]
          exact Nat.le_of_not_le h2
        · exact Nat.le_trans (Nat.le_of_not_le h2) (hhd y h3)

theorem sortedByTime_sortByTime (l : List LeaderboardEntry) :
    SortedByTime (sortByTime l) := by
  induction l with
  | nil => simp [sortByTime, SortedByTime]
  | cons hd tl ih => exact sortedByTime_insertSorted hd ih

theorem length_assignRanksFrom (i : Nat) (l : List LeaderboardEntry) :
    (assignRanksFrom i l).length = l.length := by
  induction l generalizing i with
  | nil => rfl
  | cons hd tl ih => simp [assignRanksFrom, ih]

theorem mem_assignRanksFrom {i : Nat} {l : List LeaderboardEntry}
    {y : LeaderboardEntry} (h : y ∈ assignRanksFrom i l) :
    ∃ x ∈ l, y.best_time_ms = x.best_time_ms := by
  induction l generalizing i with
  | nil => simp [assignRanksFrom] at h
  | cons hd tl ih =>
      rcases List.mem_cons.mp h with h2 | h2
      · exact ⟨hd, List.mem_cons_self hd tl, by rw [h2]⟩
      · obtain ⟨x, hx, he⟩ := ih h2
        exact ⟨x, List.mem_cons_of_mem _ hx, he⟩

theorem sortedByTime_assignRanksFrom (i : Nat) {l : List LeaderboardEntry}
    (h : SortedByTime l) : SortedByTime (assignRanksFrom i l) := by
  induction l generalizing i with
  | nil => simp [assignRanksFrom, SortedByTime]
  | cons hd tl ih =>
      rcases List.pairwise_cons.mp h with ⟨hhd, htl⟩
      refine List.pairwise_cons.mpr ⟨?_, ih (i + 1) htl⟩
      intro y hy
      obtain ⟨x, hx, he⟩ := mem_assignRanksFrom hy
      show ({ hd with rank := i + 1 } : LeaderboardEntry).best_time_ms ≤ y.best_time_ms
      rw [he]
      exact hhd x hx

theorem get_assignRanksFrom (i : Nat) (l : List LeaderboardEntry)
    (j : Nat) (h : j < (assignRanksFrom i l).length) :
    ((assignRanksFrom i l).get ⟨j, h⟩).rank = i + j + 1 := by
  induction l generalizing i j with
  | nil => simp [assignRanksFrom] at h
  | cons hd tl ih =>
      cases j with
      | zero => rfl
      | succ j' =>
          have h2 : j' < (assignRanksFrom (i + 1) tl).length := by
            simpa [assignRanksFrom] using Nat.lt_of_succ_lt_succ h
          have := ih (i + 1) j' h2
          simp only [assignRanksFrom, List.get_cons_succ]
          rw [this]
          omega

theorem ranksDense_assignRanks (l : List LeaderboardEntry) :
    RanksDense (assignRanksFrom 0 l) := by
  intro j hj
  have := get_assignRanksFrom 0 l j hj
  omega

theorem get_take_eq {α : Type} (l : List α) (n j : Nat)
    (h : j < (l.take n).length) (h2 : j < l.length) :
    (l.take n).get ⟨j, h⟩ = l.get ⟨j, h2⟩ := by
  simp [List.get_eq_getElem, List.getElem_take]

theorem lbinv_truncAux (l : List LeaderboardEntry) (hs : SortedByTime l)
    (hd : RanksDense l) : LBInv (if l.length > 100 then l.take 100 else l) := by
  by_cases h : l.length > 100
  · rw [if_pos h]
    refine ⟨?_, List.Pairwise.sublist (List.take_sublist 100 l) hs, ?_⟩
    · rw [List.length_take]
      omega
    · intro j hj
      have h2 : j < l.length := by
        have := List.length_take 100 l
        omega
      rw [get_take_eq l 100 j hj h2]
      exact hd j h2
  · rw [if_neg h]
    exact ⟨by omega, hs, hd⟩

theorem lbinv_updateLeaderboard (wallet : Wallet) (username : String)
    (tp : TournamentPlayer) (lb : List LeaderboardEntry) :
    LBInv (updateLeaderboard wallet username tp lb) := by
  unfold updateLeaderboard
  rcases hu : updateFirstEntry wallet tp lb with ⟨lb1, found⟩
  exact lbinv_truncAux _
    (sortedByTime_assignRanksFrom 0 (sortedByTime_sortByTime _))
    (ranksDense_assignRanks _)

/-! Overflow-freedom of the XP calculation. -/

theorem calculate_xp_u64_eq_exact (d : Difficulty) (time_ms deaths : Nat)
    (completed : Bool) (h64 : time_ms < 2 ^ 64) (h32 : deaths < 2 ^ 32) :
    d.calculate_xp_u64 time_ms deaths completed
      = d.calculate_xp time_ms deaths completed := by
  have h2pow : (2 : Nat) ^ 64 = 18446744073709551616 := by norm_num
  have h2pow32 : (2 : Nat) ^ 32 = 4294967296 := by norm_num
  have hbase : d.base_xp ≤ 150 := by cases d <;> simp [Difficulty.base_xp]
  simp only [Difficulty.calculate_xp_u64, Difficulty.calculate_xp]
  have e1 : d.base_xp * (120 - time_ms / 1000) % 2 ^ 64
      = d.base_xp * (120 - time_ms / 1000) := by
    refine Nat.mod_eq_of_lt ?_
    have : d.base_xp * (120 - time_ms / 1000) ≤ 150 * 120 :=
      Nat.mul_le_mul hbase (by omega)
    omega
  have e2 : deaths * 10 % 2 ^ 64 = deaths * 10 :=
    Nat.mod_eq_of_lt (by omega)
  rw [e1, e2]
  have hcb : (if completed = true then d.base_xp else 0) ≤ 150 := by
    split <;> omega
  have htb : (if completed = true ∧ time_ms / 1000 < 120 then
      d.base_xp * (120 - time_ms / 1000) / 120 else 0) ≤ 150 := by
    split
    · have h1 : d.base_xp * (120 - time_ms / 1000) ≤ 150 * 120 :=
        Nat.mul_le_mul hbase (by omega)
      have h2 : d.base_xp * (120 - time_ms / 1000) / 120 ≤ 150 * 120 / 120 :=
        Nat.div_le_div_right h1
      omega
    · omega
  have e3 : (d.base_xp + if completed = true then d.base_xp else 0) % 2 ^ 64
      = d.base_xp + if completed = true then d.base_xp else 0 :=
    Nat.mod_eq_of_lt (by omega)
  rw [e3]
  have e4 : ((d.base_xp + if completed = true then d.base_xp else 0)
        + if completed = true ∧ time_ms / 1000 < 120 then
            d.base_xp * (120 - time_ms / 1000) / 120 else 0) % 2 ^ 64
      = (d.base_xp + if completed = true then d.base_xp else 0)
        + if completed = true ∧ time_ms / 1000 < 120 then
            d.base_xp * (120 - time_ms / 1000) / 120 else 0 :=
    Nat.mod_eq_of_lt (by omega)
  rw [e4]
  have e5 : ((d.base_xp + if completed = true then d.base_xp else 0)
        + if completed = true ∧ time_ms / 1000 < 120 then
            d.base_xp * (120 - time_ms / 1000) / 120 else 0)
        * (100 - min (deaths * 10) 50) % 2 ^ 64
      = ((d.base_xp + if completed = true then d.base_xp else 0)
        + if completed = true ∧ time_ms / 1000 < 120 then
            d.base_xp * (120 - time_ms / 1000) / 120 else 0)
        * (100 - min (deaths * 10) 50) := by
    refine Nat.mod_eq_of_lt ?_
    have hsum : (d.base_xp + if completed = true then d.base_xp else 0)
        + (if completed = true ∧ time_ms / 1000 < 120 then
            d.base_xp * (120 - time_ms / 1000) / 120 else 0) ≤ 450 := by
      omega
    have hdm : 100 - min (deaths * 10) 50 ≤ 100 := by omega
    have := Nat.mul_le_mul hsum hdm
    omega
  rw [e5]

/-! Small option and freshness helpers. -/

theorem lookupKV_eq_none_of_fresh {K V : Type} [DecidableEq K]
    {m : List (K × V)} {k : K} (h : ∀ x ∈ m, x.1 ≠ k) :
    lookupKV m k = none := by
  induction m with
  | nil => rfl
  | cons hd tl ih =>
      obtain ⟨k', v'⟩ := hd
      rw [lookupKV_cons_ne v' tl (h (k', v') (List.mem_cons_self _ tl))]
      exact ih fun x hx => h x (List.mem_cons_of_mem _ hx)

theorem lookupKV_some_of_isSome {K V : Type} [DecidableEq K]
    {m : List (K × V)} {k : K} (h : (lookupKV m k).isSome = true) :
    ∃ v, lookupKV m k = some v := by
  cases hv : lookupKV m k with
  | none => rw [hv] at h; exact absurd h (by simp)
  | some v => exact ⟨v, rfl⟩

/-! Monotonicity and base case of the inductive invariant. -/

theorem goodState_mono {s : LabyrinthState} {t t' : Nat} (g : GoodState s t)
    (h : t ≤ t') : GoodState s t' := by
  refine ⟨g.players_nodup, g.runs_fresh, g.tournaments_keyed,
    g.tournaments_bounded, g.next_tid_ge, g.active_id_one, g.active_sync,
    ?_, g.rewards_keyed, g.runs_have_player, g.claimed_have_player,
    g.bindings_have_player, g.xp_ledger, g.lb_inv⟩
  intro x hx
  obtain ⟨tr, h1, h2, h3⟩ := g.rewards_ended x hx
  exact ⟨tr, h1, h2, le_trans h3 h⟩

theorem lbinv_nil : LBInv [] := by
  refine ⟨by simp, by simp [SortedByTime], ?_⟩
  intro i h
  simp at h

theorem goodState_init (hub : String) (t0 : Nat) :
    GoodState (instantiateState hub t0) t0 := by
  refine ⟨?_, ?_, ?_, ?_, ?_, ?_, ?_, ?_, ?_, ?_, ?_, ?_, ?_, ?_⟩
  · simp [instantiateState, emptyState, KeysNodup]
  · intro x hx
    simp [instantiateState, emptyState] at hx
  · intro x hx
    simp [instantiateState, emptyState, upsertKV] at hx
    rw [hx]
    rfl
  · intro x hx
    simp [instantiateState, emptyState, upsertKV] at hx
    rw [hx]
    simp [instantiateState, emptyState]
  · simp [instantiateState, emptyState]
  · intro t1 h
    simp [instantiateState] at h
    rw [← h]
    rfl
  · intro t1 h
    simp [instantiateState] at h
    refine ⟨defaultChampionship t0, ?_, by rw [← h]⟩
    rw [← h]
    show lookupKV (upsertKV emptyState.tournaments 1 (defaultChampionship t0))
      (defaultChampionship t0).id = some (defaultChampionship t0)
    exact lookupKV_upsert_self _ _ _
  · intro x hx
    simp [instantiateState, emptyState] at hx
  · intro x hx
    simp [instantiateState, emptyState] at hx
  · intro x hx
    simp [instantiateState, emptyState] at hx
  · intro x hx
    simp [instantiateState, emptyState] at hx
  · intro x hx
    simp [instantiateState, emptyState] at hx
  · intro x hx
    simp [instantiateState, emptyState] at hx
  · intro x hx
    simp [instantiateState, emptyState, upsertKV] at hx
    rw [hx]
    exact lbinv_nil

/-! Preservation of the invariant by each operation. -/

theorem goodState_register (sg : AccountOwner) (w : Wallet) (u : String)
    (now t : Nat) {s : LabyrinthState} (g : GoodState s t) :
    GoodState (register_player sg w u now s).1 t := by
  unfold register_player
  by_cases h1 : containsKey s.players w = true
  · rw [if_pos h1]
    refine ⟨g.players_nodup, g.runs_fresh, g.tournaments_keyed,
      g.tournaments_bounded, g.next_tid_ge, g.active_id_one, g.active_sync,
      g.rewards_ended, g.rewards_keyed, g.runs_have_player,
      g.claimed_have_player, ?_, g.xp_ledger, g.lb_inv⟩
    intro x hx
    rcases mem_upsertKV hx with h2 | h2
    · rw [h2]
      simpa [containsKey] using h1
    · exact g.bindings_have_player x h2
  · rw [if_neg h1]
    by_cases h2 : containsKey s.username_to_wallet u = true
    · rw [if_pos h2]
      exact g
    · rw [if_neg h2]
      have hnone : lookupKV s.players w = none := by
        cases hv : lookupKV s.players w with
        | none => rfl
        | some v => exact absurd (by simp [containsKey, hv]) h1
      refine ⟨keysNodup_upsert w _ g.players_nodup, g.runs_fresh,
        g.tournaments_keyed, g.tournaments_bounded, g.next_tid_ge,
        g.active_id_one, g.active_sync, g.rewards_ended, g.rewards_keyed,
        ?_, ?_, ?_, ?_, g.lb_inv⟩
      · intro x hx
        exact lookupKV_isSome_upsert w _ (g.runs_have_player x hx)
      · intro x hx hc
        exact lookupKV_isSome_upsert w _ (g.claimed_have_player x hx hc)
      · intro x hx
        rcases mem_upsertKV hx with h3 | h3
        · rw [h3]
          simp [lookupKV_upsert_self]
        · exact lookupKV_isSome_upsert w _ (g.bindings_have_player x h3)
      · intro x hx
        rcases (mem_upsertKV_iff g.players_nodup).mp hx with h3 | ⟨h3, h4⟩
        · rw [h3]
          show (0 : Nat) = sumRunXp s.runs w + sumRewardClaimed s.rewards w
          have hr : sumRunXp s.runs w = 0 := by
            refine sumBy_eq_zero ?_
            intro x2 hx2
            by_cases h5 : x2.2.wallet_address = w
            · have := g.runs_have_player x2 hx2
              rw [h5] at this
              rw [hnone] at this
              exact absurd this (by simp)
            · simp [h5]
          have hc : sumRewardClaimed s.rewards w = 0 := by
            refine sumBy_eq_zero ?_
            intro x2 hx2
            by_cases h5 : x2.2.wallet_address = w
            · by_cases h6 : x2.2.claimed = true
              · have := g.claimed_have_player x2 hx2 h6
                rw [h5] at this
                rw [hnone] at this
                exact absurd this (by simp)
              · simp [h5, h6]
            · simp [h5]
          rw [hr, hc]
        · exact g.xp_ledger x h3

theorem upsertKV_idem {K V : Type} [DecidableEq K] (m : List (K × V))
    (k : K) (v : V) : upsertKV (upsertKV m k v) k v = upsertKV m k v := by
  induction m with
  | nil => simp [upsertKV]
  | cons hd tl ih =>
      obtain ⟨k', v'⟩ := hd
      by_cases h : k' = k
      · rw [upsertKV_cons_eq v' v tl h, upsertKV_cons_eq v v tl rfl]
      · rw [upsertKV_cons_ne v' v tl h,
          upsertKV_cons_ne v' v (upsertKV tl k v) h, ih]

theorem goodState_bindOnly (sg : AccountOwner) (w : Wallet)
    {s : LabyrinthState} {t : Nat} (g : GoodState s t)
    (hp : (lookupKV s.players w).isSome = true) :
    GoodState { s with signer_to_wallet := upsertKV s.signer_to_wallet sg w } t := by
  refine ⟨g.players_nodup, g.runs_fresh, g.tournaments_keyed,
    g.tournaments_bounded, g.next_tid_ge, g.active_id_one, g.active_sync,
    g.rewards_ended, g.rewards_keyed, g.runs_have_player,
    g.claimed_have_player, ?_, g.xp_ledger, g.lb_inv⟩
  intro x hx
  rcases mem_upsertKV hx with h2 | h2
  · rw [h2]
    exact hp
  · exact g.bindings_have_player x h2

theorem goodState_createPlayer (sg : AccountOwner) (w : Wallet) (p : Player)
    (uname : String) {s : LabyrinthState} {t : Nat} (g : GoodState s t)
    (hnone : lookupKV s.players w = none) (hxp : p.total_xp = 0) :
    GoodState
      { s with
          players := upsertKV s.players w p
          username_to_wallet := upsertKV s.username_to_wallet uname w
          signer_to_wallet := upsertKV s.signer_to_wallet sg w } t := by
  refine ⟨keysNodup_upsert w _ g.players_nodup, g.runs_fresh,
    g.tournaments_keyed, g.tournaments_bounded, g.next_tid_ge,
    g.active_id_one, g.active_sync, g.rewards_ended, g.rewards_keyed,
    ?_, ?_, ?_, ?_, g.lb_inv⟩
  · intro x hx
    exact lookupKV_isSome_upsert w _ (g.runs_have_player x hx)
  · intro x hx hc
    exact lookupKV_isSome_upsert w _ (g.claimed_have_player x hx hc)
  · intro x hx
    rcases mem_upsertKV hx with h3 | h3
    · rw [h3]
      simp [lookupKV_upsert_self]
    · exact lookupKV_isSome_upsert w _ (g.bindings_have_player x h3)
  · intro x hx
    rcases (mem_upsertKV_iff g.players_nodup).mp hx with h3 | ⟨h3, h4⟩
    · rw [h3]
      show p.total_xp = sumRunXp s.runs w + sumRewardClaimed s.rewards w
      have hr : sumRunXp s.runs w = 0 := by
        refine sumBy_eq_zero ?_
        intro x2 hx2
        by_cases h5 : x2.2.wallet_address = w
        · have := g.runs_have_player x2 hx2
          rw [h5, hnone] at this
          exact absurd this (by simp)
        · simp [h5]
      have hc : sumRewardClaimed s.rewards w = 0 := by
        refine sumBy_eq_zero ?_
        intro x2 hx2
        by_cases h5 : x2.2.wallet_address = w
        · by_cases h6 : x2.2.claimed = true
          · have := g.claimed_have_player x2 hx2 h6
            rw [h5, hnone] at this
            exact absurd this (by simp)
          · simp [h5, h6]
        · simp [h5]
      rw [hr, hc, hxp]
    · exact g.xp_ledger x h3

/-! Unfolding equations for submit_run and get_or_create_player. -/

theorem get_or_create_player_eq_some {s : LabyrinthState} {w : Wallet}
    {p : Player} (sg : AccountOwner) (d : String) (now : Nat)
    (h : lookupKV s.players w = some p) :
    get_or_create_player sg w d now s =
      (p, { s with signer_to_wallet := upsertKV s.signer_to_wallet sg w }) := by
  unfold get_or_create_player
  rw [h]

theorem get_or_create_player_eq_none {s : LabyrinthState} {w : Wallet}
    (sg : AccountOwner) (d : String) (now : Nat)
    (h : lookupKV s.players w = none) :
    get_or_create_player sg w d now s =
      ({ wallet_address := w
         username := defaultUsername w
         total_xp := 0
         total_runs := 0
         tournaments_played := 0
         tournaments_won := 0
         best_time_ms := none
         registered_at := now
         last_active := now },
       { s with
           players := upsertKV s.players w
             { wallet_address := w
               username := defaultUsername w
               total_xp := 0
               total_runs := 0
               tournaments_played := 0
               tournaments_won := 0
               best_time_ms := none
               registered_at := now
               last_active := now }
           username_to_wallet := upsertKV s.username_to_wallet
             (defaultUsername w) w
           signer_to_wallet := upsertKV s.signer_to_wallet sg w }) := by
  unfold get_or_create_player
  rw [h]

theorem submit_run_send_eq (sg : AccountOwner) (w : Wallet)
    (tid time_ms score coins deaths : Nat) (completed : Bool) (now : Nat)
    (s1 : LabyrinthState) :
    submit_run_send sg w tid time_ms score coins deaths completed now s1 =
      ((get_or_create_player sg w "" now s1).2, .ok,
        some { wallet_address := w
               username := (get_or_create_player sg w "" now s1).1.username
               tournament_id := tid
               time_ms := time_ms
               score := score
               coins := coins
               deaths := deaths
               completed := completed }) := by
  unfold submit_run_send
  rcases h : get_or_create_player sg w "" now s1 with ⟨p, s2⟩
  rfl

theorem submit_run_eq_found {s : LabyrinthState} {sg : AccountOwner}
    {w : Wallet} (tid time_ms score coins deaths : Nat) (completed : Bool)
    (now : Nat) (h : get_wallet_for_signer s sg = some w) :
    submit_run sg tid time_ms score coins deaths completed now s =
      submit_run_send sg w tid time_ms score coins deaths completed now s := by
  unfold submit_run
  rw [h]

theorem submit_run_eq_auto {s : LabyrinthState} {addr : Wallet}
    (tid time_ms score coins deaths : Nat) (completed : Bool) (now : Nat)
    (h : get_wallet_for_signer s (AccountOwner.address20 addr) = none) :
    submit_run (AccountOwner.address20 addr) tid time_ms score coins deaths
        completed now s =
      submit_run_send (AccountOwner.address20 addr) addr tid time_ms score
        coins deaths completed now
        { s with signer_to_wallet :=
            upsertKV s.signer_to_wallet (AccountOwner.address20 addr) addr } := by
  unfold submit_run
  rw [h]

theorem submit_run_eq_unregistered {s : LabyrinthState} {a : List Nat}
    (tid time_ms score coins deaths : Nat) (completed : Bool) (now : Nat)
    (h : get_wallet_for_signer s (AccountOwner.address32 a) = none) :
    submit_run (AccountOwner.address32 a) tid time_ms score coins deaths
        completed now s =
      (s, .error "Player not registered. Call registerPlayer first.", none) := by
  unfold submit_run
  rw [h]

theorem goodState_submit_send (sg : AccountOwner) (w : Wallet)
    (tid time_ms score coins deaths : Nat) (completed : Bool) (now t : Nat)
    {s1 : LabyrinthState} (g : GoodState s1 t) :
    GoodState
      (submit_run_send sg w tid time_ms score coins deaths completed now s1).1 t := by
  rw [submit_run_send_eq]
  cases hp : lookupKV s1.players w with
  | some player =>
      rw [get_or_create_player_eq_some sg "" now hp]
      exact goodState_bindOnly sg w g (by simp [hp])
  | none =>
      rw [get_or_create_player_eq_none sg "" now hp]
      exact goodState_createPlayer sg w _ _ g hp rfl

theorem goodState_submit (sg : AccountOwner)
    (tid time_ms score coins deaths : Nat) (completed : Bool) (now t : Nat)
    {s : LabyrinthState} (g : GoodState s t) :
    GoodState (submit_run sg tid time_ms score coins deaths completed now s).1 t := by
  cases hb : get_wallet_for_signer s sg with
  | some w =>
      rw [submit_run_eq_found tid time_ms score coins deaths completed now hb]
      exact goodState_submit_send sg w tid time_ms score coins deaths
        completed now t g
  | none =>
      cases sg with
      | address20 addr =>
          rw [submit_run_eq_auto tid time_ms score coins deaths completed now hb]
          rw [submit_run_send_eq]
          cases hp : lookupKV s.players addr with
          | some player =>
              have hp1 : lookupKV
                  (LabyrinthState.players
                    { s with signer_to_wallet := upsertKV s.signer_to_wallet (AccountOwner.address20 addr) addr })
                  addr = some player := hp
              rw [get_or_create_player_eq_some _ "" now hp1]
              have hgoal := goodState_bindOnly (AccountOwner.address20 addr)
                addr g (by simp [hp])
              simp only [upsertKV_idem]
              exact hgoal
          | none =>
              have hp1 : lookupKV
                  (LabyrinthState.players
                    { s with signer_to_wallet := upsertKV s.signer_to_wallet (AccountOwner.address20 addr) addr })
                  addr = none := hp
              rw [get_or_create_player_eq_none _ "" now hp1]
              have hgoal := goodState_createPlayer (AccountOwner.address20 addr)
                addr
                { wallet_address := addr
                  username := defaultUsername addr
                  total_xp := 0
                  total_runs := 0
                  tournaments_played := 0
                  tournaments_won := 0
                  best_time_ms := none
                  registered_at := now
                  last_active := now }
                (defaultUsername addr) g hp rfl
              simp only [upsertKV_idem]
              exact hgoal
      | address32 a =>
          rw [submit_run_eq_unregistered tid time_ms score coins deaths
            completed now hb]
          exact g

theorem goodState_create (sg : AccountOwner) (title desc seed : String)
    (diff : Difficulty) (dur pool : Nat) (now t : Nat) {s : LabyrinthState}
    (g : GoodState s t) :
    GoodState (create_tournament sg title desc seed diff dur pool now s).1 t := by
  unfold create_tournament
  have hfresh : ∀ x ∈ s.tournaments, x.1 ≠ s.next_tournament_id := by
    intro x hx
    exact Nat.ne_of_lt (g.tournaments_bounded x hx)
  refine ⟨g.players_nodup, g.runs_fresh, ?_, ?_, ?_, g.active_id_one, ?_, ?_,
    g.rewards_keyed, g.runs_have_player, g.claimed_have_player,
    g.bindings_have_player, g.xp_ledger, ?_⟩
  · intro x hx
    rcases mem_upsertKV hx with h2 | h2
    · simp [h2]
    · exact g.tournaments_keyed x h2
  · intro x hx
    rcases mem_upsertKV hx with h2 | h2
    · rw [h2]
      exact Nat.lt_succ_self _
    · exact Nat.lt_succ_of_lt (g.tournaments_bounded x h2)
  · exact Nat.le_succ_of_le g.next_tid_ge
  · intro t0 h
    obtain ⟨t1, h1, h2⟩ := g.active_sync t0 h
    refine ⟨t1, ?_, h2⟩
    rw [lookupKV_upsert_ne _ _ _ _ ?_]
    · exact h1
    · have := g.active_id_one t0 h
      have := g.next_tid_ge
      omega
  · intro x hx
    obtain ⟨tr, h1, h2, h3⟩ := g.rewards_ended x hx
    refine ⟨tr, ?_, h2, h3⟩
    rw [lookupKV_upsert_ne _ _ _ _ ?_]
    · exact h1
    · have := g.tournaments_bounded (x.1.1, tr) (mem_of_lookupKV_eq h1)
      exact Nat.ne_of_lt this
  · intro x hx
    rcases mem_upsertKV hx with h2 | h2
    · rw [h2]
      exact lbinv_nil
    · exact g.lb_inv x h2

/-! Lemmas about the reward-distribution loop. -/

theorem distributeRewards_count (tid pool : Nat)
    (entries : List LeaderboardEntry) :
    ∀ (i : Nat) (ps : List (Wallet × Player))
      (rs : List ((Nat × Wallet) × TournamentReward)),
      (distributeRewards tid pool i entries ps rs).2.2 = entries.length := by
  induction entries with
  | nil => intro i ps rs; rfl
  | cons e rest ih =>
      intro i ps rs
      simp only [distributeRewards, List.length_cons]
      rw [ih]

theorem distributeRewards_players_nodup (tid pool : Nat)
    (entries : List LeaderboardEntry) :
    ∀ (i : Nat) (ps : List (Wallet × Player))
      (rs : List ((Nat × Wallet) × TournamentReward)),
      KeysNodup ps → KeysNodup (distributeRewards tid pool i entries ps rs).1 := by
  induction entries with
  | nil => intro i ps rs h; exact h
  | cons e rest ih =>
      intro i ps rs h
      simp only [distributeRewards]
      refine ih (i + 1) _ _ ?_
      by_cases h0 : i = 0
      · rw [if_pos h0]
        cases hl : lookupKV ps e.wallet_address with
        | some player => exact keysNodup_upsert _ _ h
        | none => exact h
      · rw [if_neg h0]
        exact h

theorem distributeRewards_players_isSome (tid pool : Nat)
    (entries : List LeaderboardEntry) :
    ∀ (i : Nat) (ps : List (Wallet × Player))
      (rs : List ((Nat × Wallet) × TournamentReward)) (w : Wallet),
      (lookupKV ps w).isSome = true →
      (lookupKV (distributeRewards tid pool i entries ps rs).1 w).isSome = true := by
  induction entries with
  | nil => intro i ps rs w h; exact h
  | cons e rest ih =>
      intro i ps rs w h
      simp only [distributeRewards]
      refine ih (i + 1) _ _ w ?_
      by_cases h0 : i = 0
      · rw [if_pos h0]
        cases hl : lookupKV ps e.wallet_address with
        | some player => exact lookupKV_isSome_upsert _ _ h
        | none => exact h
      · rw [if_neg h0]
        exact h

theorem distributeRewards_players_mem (tid pool : Nat)
    (entries : List LeaderboardEntry) :
    ∀ (i : Nat) (ps : List (Wallet × Player))
      (rs : List ((Nat × Wallet) × TournamentReward)) (x : Wallet × Player),
      KeysNodup ps →
      x ∈ (distributeRewards tid pool i entries ps rs).1 →
      ∃ p : Player, (x.1, p) ∈ ps ∧ x.2.total_xp = p.total_xp := by
  induction entries with
  | nil =>
      intro i ps rs x _ hx
      exact ⟨x.2, hx, rfl⟩
  | cons e rest ih =>
      intro i ps rs x hn hx
      simp only [distributeRewards] at hx
      by_cases h0 : i = 0
      · rw [if_pos h0] at hx
        cases hl : lookupKV ps e.wallet_address with
        | some player =>
            rw [hl] at hx
            obtain ⟨p1, hp1, he1⟩ := ih (i + 1) _ _ x (keysNodup_upsert _ _ hn) hx
            rcases mem_upsertKV hp1 with h2 | h2
            · refine ⟨player, ?_, ?_⟩
              · have : x.1 = e.wallet_address := congrArg Prod.fst h2
                rw [this]
                exact mem_of_lookupKV_eq hl
              · have : p1 = { player with
                  tournaments_won := player.tournaments_won + 1 } :=
                  congrArg Prod.snd h2
                rw [he1, this]
            · exact ⟨p1, h2, he1⟩
        | none =>
            rw [hl] at hx
            exact ih (i + 1) _ _ x hn hx
      · rw [if_neg h0] at hx
        exact ih (i + 1) _ _ x hn hx

theorem distributeRewards_rewards_mem (tid pool : Nat)
    (entries : List LeaderboardEntry) :
    ∀ (i : Nat) (ps : List (Wallet × Player))
      (rs : List ((Nat × Wallet) × TournamentReward))
      (x : (Nat × Wallet) × TournamentReward),
      x ∈ (distributeRewards tid pool i entries ps rs).2.1 →
      x ∈ rs ∨ (x.1.1 = tid ∧ x.2.claimed = false ∧
        x.2.wallet_address = x.1.2) := by
  induction entries with
  | nil =>
      intro i ps rs x hx
      exact Or.inl hx
  | cons e rest ih =>
      intro i ps rs x hx
      simp only [distributeRewards] at hx
      rcases ih (i + 1) _ _ x hx with h2 | h2
      · rcases mem_upsertKV h2 with h3 | h3
        · refine Or.inr ?_
          rw [h3]
          exact ⟨rfl, rfl, rfl⟩
        · exact Or.inl h3
      · exact Or.inr h2

theorem distributeRewards_sumClaimed (tid pool : Nat)
    (entries : List LeaderboardEntry) :
    ∀ (i : Nat) (ps : List (Wallet × Player))
      (rs : List ((Nat × Wallet) × TournamentReward)) (w : Wallet),
      (∀ x ∈ rs, x.1.1 = tid → x.2.claimed = false) →
      sumRewardClaimed (distributeRewards tid pool i entries ps rs).2.1 w
        = sumRewardClaimed rs w := by
  induction entries with
  | nil => intro i ps rs w _; rfl
  | cons e rest ih =>
      intro i ps rs w hAll
      simp only [distributeRewards]
      have hAll1 : ∀ x ∈ upsertKV rs (tid, e.wallet_address)
          { tournament_id := tid
            wallet_address := e.wallet_address
            rank := e.rank
            xp_amount := pool * rewardPercentages.getD i 0 / 100
            claimed := false },
          x.1.1 = tid → x.2.claimed = false := by
        intro x hx ht
        rcases mem_upsertKV hx with h2 | h2
        · rw [h2]
        · exact hAll x h2 ht
      rw [ih (i + 1) _ _ w hAll1]
      cases hl : lookupKV rs (tid, e.wallet_address) with
      | none =>
          unfold sumRewardClaimed
          rw [sumBy_upsert_lookup_none _ _ hl]
          simp
      | some v =>
          have hv : v.claimed = false :=
            hAll ((tid, e.wallet_address), v) (mem_of_lookupKV_eq hl) rfl
          unfold sumRewardClaimed
          refine sumBy_upsert_congr _ _ hl ?_
          simp [hv]

theorem goodState_end_core (tid now : Nat) {s : LabyrinthState}
    (g : GoodState s now) (tournament : Tournament)
    (hT : lookupKV s.tournaments tid = some tournament)
    (hEnded : ¬ tournament.status = TournamentStatus.ended)
    (hDue : ¬ now < tournament.end_time) (aid : Option Nat) :
    GoodState
      { s with
          tournaments := upsertKV s.tournaments tid { tournament with status := TournamentStatus.ended }
          active_tournament_id := aid
          players := (distributeRewards tid tournament.xp_reward_pool 0 (((lookupKV s.leaderboards tid).getD []).take 5) s.players s.rewards).1
          rewards := (distributeRewards tid tournament.xp_reward_pool 0 (((lookupKV s.leaderboards tid).getD []).take 5) s.players s.rewards).2.1 }
      now := by
  have hNoTid : ∀ x ∈ s.rewards, x.1.1 ≠ tid := by
    intro x hx heq
    obtain ⟨tr, h1, h2, _⟩ := g.rewards_ended x hx
    rw [heq, hT] at h1
    simp only [Option.some.injEq] at h1
    rw [← h1] at h2
    exact hEnded h2
  have hAllUnclaimed : ∀ x ∈ s.rewards, x.1.1 = tid → x.2.claimed = false :=
    fun x hx heq => absurd heq (hNoTid x hx)
  have hTidKeyed : tournament.id = tid :=
    g.tournaments_keyed (tid, tournament) (mem_of_lookupKV_eq hT)
  refine ⟨?_, g.runs_fresh, ?_, ?_, g.next_tid_ge, g.active_id_one, ?_, ?_,
    ?_, ?_, ?_, ?_, ?_, g.lb_inv⟩
  · exact distributeRewards_players_nodup _ _ _ _ _ _ g.players_nodup
  · intro x hx
    rcases mem_upsertKV hx with h2 | h2
    · rw [h2]
      exact hTidKeyed
    · exact g.tournaments_keyed x h2
  · intro x hx
    rcases mem_upsertKV hx with h2 | h2
    · rw [h2]
      exact g.tournaments_bounded (tid, tournament) (mem_of_lookupKV_eq hT)
    · exact g.tournaments_bounded x h2
  · intro t0 h
    obtain ⟨t1, h1, h2⟩ := g.active_sync t0 h
    by_cases h3 : t0.id = tid
    · refine ⟨{ tournament with status := TournamentStatus.ended }, ?_, ?_⟩
      · rw [h3]
        exact lookupKV_upsert_self _ _ _
      · rw [h3, hT] at h1
        simp only [Option.some.injEq] at h1
        rw [← h1] at h2
        exact h2
    · refine ⟨t1, ?_, h2⟩
      rw [lookupKV_upsert_ne _ _ _ _ h3]
      exact h1
  · intro x hx
    rcases distributeRewards_rewards_mem _ _ _ _ _ _ x hx with h2 | h2
    · obtain ⟨tr, h3, h4, h5⟩ := g.rewards_ended x h2
      refine ⟨tr, ?_, h4, h5⟩
      rw [lookupKV_upsert_ne _ _ _ _ (hNoTid x h2)]
      exact h3
    · refine ⟨{ tournament with status := TournamentStatus.ended }, ?_, rfl, ?_⟩
      · rw [h2.1]
        exact lookupKV_upsert_self _ _ _
      · show tournament.end_time ≤ now
        omega
  · intro x hx
    rcases distributeRewards_rewards_mem _ _ _ _ _ _ x hx with h2 | h2
    · exact g.rewards_keyed x h2
    · exact h2.2.2
  · intro x hx
    exact distributeRewards_players_isSome _ _ _ _ _ _ _
      (g.runs_have_player x hx)
  · intro x hx hc
    rcases distributeRewards_rewards_mem _ _ _ _ _ _ x hx with h2 | h2
    · exact distributeRewards_players_isSome _ _ _ _ _ _ _
        (g.claimed_have_player x h2 hc)
    · rw [h2.2.1] at hc
      exact absurd hc (by simp)
  · intro x hx
    exact distributeRewards_players_isSome _ _ _ _ _ _ _
      (g.bindings_have_player x hx)
  · intro x hx
    obtain ⟨p, hp, he⟩ := distributeRewards_players_mem _ _ _ _ _ _ x
      g.players_nodup hx
    have hled := g.xp_ledger (x.1, p) hp
    show x.2.total_xp = sumRunXp s.runs x.1 + sumRewardClaimed _ x.1
    rw [he, distributeRewards_sumClaimed _ _ _ _ _ _ _ hAllUnclaimed]
    exact hled

theorem goodState_end (sg : AccountOwner) (tid : Nat) (now : Nat)
    {s : LabyrinthState} (g : GoodState s now) :
    GoodState (end_tournament sg tid now s).1 now := by
  unfold end_tournament
  split
  · exact g
  next tournament hT2 =>
    split
    next hEnded => exact g
    next hEnded =>
      split
      next hDue => exact g
      next hDue =>
        exact goodState_end_core tid now g tournament hT2 hEnded hDue _

theorem goodState_claim (sg : AccountOwner) (tid : Nat) (now : Nat)
    {s : LabyrinthState} (g : GoodState s now) :
    GoodState (claim_reward sg tid s).1 now := by
  unfold claim_reward
  split
  · exact g
  next wallet hW =>
    split
    · exact g
    next reward hR =>
      split
      next hClaimed => exact g
      next hClaimed =>
        have hPlayerSome : (lookupKV s.players wallet).isSome = true :=
          g.bindings_have_player (sg, wallet) (mem_of_lookupKV_eq hW)
        obtain ⟨player, hP⟩ := lookupKV_some_of_isSome hPlayerSome
        rw [hP]
        have hRmem := mem_of_lookupKV_eq hR
        have hRkey : reward.wallet_address = wallet :=
          g.rewards_keyed ((tid, wallet), reward) hRmem
        have hRfalse : reward.claimed = false := by
          cases hc : reward.claimed with
          | false => rfl
          | true => exact absurd hc hClaimed
        refine ⟨keysNodup_upsert _ _ g.players_nodup, g.runs_fresh,
          g.tournaments_keyed, g.tournaments_bounded, g.next_tid_ge,
          g.active_id_one, g.active_sync, ?_, ?_, ?_, ?_, ?_, ?_, g.lb_inv⟩
        · intro x hx
          rcases mem_upsertKV hx with h2 | h2
          · obtain ⟨tr, h3, h4, h5⟩ := g.rewards_ended ((tid, wallet), reward) hRmem
            rw [h2]
            exact ⟨tr, h3, h4, h5⟩
          · exact g.rewards_ended x h2
        · intro x hx
          rcases mem_upsertKV hx with h2 | h2
          · rw [h2]
            exact hRkey
          · exact g.rewards_keyed x h2
        · intro x hx
          exact lookupKV_isSome_upsert _ _ (g.runs_have_player x hx)
        · intro x hx hc
          rcases mem_upsertKV hx with h2 | h2
          · have hxw : x.2.wallet_address = wallet := by
              rw [h2]
              exact hRkey
            rw [hxw]
            simp [lookupKV_upsert_self]
          · exact lookupKV_isSome_upsert _ _ (g.claimed_have_player x h2 hc)
        · intro x hx
          exact lookupKV_isSome_upsert _ _ (g.bindings_have_player x hx)
        · intro x hx
          rcases (mem_upsertKV_iff g.players_nodup).mp hx with h2 | ⟨h2, h3⟩
          · rw [h2]
            show player.total_xp + reward.xp_amount
              = sumRunXp s.runs wallet + sumRewardClaimed _ wallet
            have hsum : sumRewardClaimed
                (upsertKV s.rewards (tid, wallet) { reward with claimed := true })
                wallet = sumRewardClaimed s.rewards wallet + reward.xp_amount := by
              unfold sumRewardClaimed
              have := sumBy_upsert_zero (m := s.rewards) (k := (tid, wallet))
                (v := reward) ({ reward with claimed := true })
                (fun r => if r.wallet_address = wallet then
                  (if r.claimed then r.xp_amount else 0) else 0) hR
                (by simp [hRfalse])
              rw [this]
              simp [hRkey]
            rw [hsum]
            have hled : player.total_xp
                = sumRunXp s.runs wallet + sumRewardClaimed s.rewards wallet :=
              g.xp_ledger (wallet, player) (mem_of_lookupKV_eq hP)
            omega
          · have hxw : x.1 ≠ wallet := h3
            show x.2.total_xp = sumRunXp s.runs x.1 + sumRewardClaimed _ x.1
            have hsum : sumRewardClaimed
                (upsertKV s.rewards (tid, wallet) { reward with claimed := true })
                x.1 = sumRewardClaimed s.rewards x.1 := by
              unfold sumRewardClaimed
              refine sumBy_upsert_congr _ _ hR ?_
              have : reward.wallet_address ≠ x.1 := by
                rw [hRkey]
                exact fun hh => hxw hh.symm
              simp [this]
            rw [hsum]
            exact g.xp_ledger x h2

theorem goodState_bootstrap (now : Nat) {s : LabyrinthState}
    (g : GoodState s now) : GoodState (bootstrap_tournament now s).1 now := by
  unfold bootstrap_tournament
  split
  next existing hEx =>
      have hExId : existing.id = 1 :=
        g.tournaments_keyed (1, existing) (mem_of_lookupKV_eq hEx)
      refine ⟨g.players_nodup, g.runs_fresh, g.tournaments_keyed,
        g.tournaments_bounded, g.next_tid_ge, ?_, ?_, g.rewards_ended,
        g.rewards_keyed, g.runs_have_player, g.claimed_have_player,
        g.bindings_have_player, g.xp_ledger, g.lb_inv⟩
      · intro t0 h
        simp only [Option.some.injEq] at h
        rw [← h]
        exact hExId
      · intro t0 h
        simp only [Option.some.injEq] at h
        refine ⟨existing, ?_, by rw [← h]⟩
        rw [← h, hExId]
        exact hEx
  next hNone =>
      refine ⟨g.players_nodup, ?_, ?_, ?_, ?_, ?_, ?_, ?_, g.rewards_keyed,
        g.runs_have_player, g.claimed_have_player, g.bindings_have_player,
        g.xp_ledger, ?_⟩
      · intro x hx
        have := g.runs_fresh x hx
        show x.1 < (if s.next_run_id < 1 then 1 else s.next_run_id)
        split <;> omega
      · intro x hx
        rcases mem_upsertKV hx with h2 | h2
        · simp [h2, defaultChampionship]
        · exact g.tournaments_keyed x h2
      · intro x hx
        show x.1 < (if s.next_tournament_id < 2 then 2 else s.next_tournament_id)
        rcases mem_upsertKV hx with h2 | h2
        · have h3 : x.1 = 1 := by rw [h2]
          have := g.next_tid_ge
          rw [h3]
          split <;> omega
        · have := g.tournaments_bounded x h2
          split <;> omega
      · show 2 ≤ (if s.next_tournament_id < 2 then 2 else s.next_tournament_id)
        have := g.next_tid_ge
        split <;> omega
      · intro t0 h
        simp only [Option.some.injEq] at h
        rw [← h]
        rfl
      · intro t0 h
        simp only [Option.some.injEq] at h
        refine ⟨defaultChampionship now, ?_, by rw [← h]⟩
        rw [← h]
        show lookupKV (upsertKV s.tournaments 1 (defaultChampionship now))
          (defaultChampionship now).id = some (defaultChampionship now)
        exact lookupKV_upsert_self _ _ _
      · intro x hx
        obtain ⟨tr, h1, h2, h3⟩ := g.rewards_ended x hx
        by_cases h4 : x.1.1 = 1
        · rw [h4, hNone] at h1
          exact absurd h1 (by simp)
        · refine ⟨tr, ?_, h2, h3⟩
          rw [lookupKV_upsert_ne _ _ _ _ h4]
          exact h1
      · intro x hx
        rcases mem_upsertKV hx with h2 | h2
        · rw [h2]
          exact lbinv_nil
        · exact g.lb_inv x h2

theorem goodState_applyBody (tid : Nat) (w : Wallet) (xp : Nat)
    (run : GameRun) (t' : Tournament) (tp : TournamentPlayer)
    (player' : Player) (lb' : List LeaderboardEntry) (recent : List Nat)
    (key : Nat × Wallet) {s : LabyrinthState} {now : Nat} (g : GoodState s now)
    (hrw : run.wallet_address = w) (hrx : run.xp_earned = xp)
    (htid1 : t'.id = 1) (htidk : t'.id = tid)
    (hmapSome : (lookupKV s.tournaments tid).isSome = true)
    (hNoTid : ∀ x ∈ s.rewards, x.1.1 ≠ tid)
    (hlb : LBInv lb')
    (hpx : player'.total_xp
      = (match lookupKV s.players w with | some p => p.total_xp | none => 0)
        + xp) :
    GoodState
      { s with
          next_run_id := s.next_run_id + 1
          runs := upsertKV s.runs s.next_run_id run
          recent_runs := recent
          tournament_players := upsertKV s.tournament_players key tp
          players := upsertKV s.players w player'
          leaderboards := upsertKV s.leaderboards tid lb'
          active_tournament := some t'
          tournaments := upsertKV s.tournaments tid t' } now := by
  have hfresh : lookupKV s.runs s.next_run_id = none :=
    lookupKV_eq_none_of_fresh fun x hx => Nat.ne_of_lt (g.runs_fresh x hx)
  refine ⟨keysNodup_upsert _ _ g.players_nodup, ?_, ?_, ?_, g.next_tid_ge,
    ?_, ?_, ?_, g.rewards_keyed, ?_, ?_, ?_, ?_, ?_⟩
  · intro x hx
    rcases mem_upsertKV hx with h2 | h2
    · have : x.1 = s.next_run_id := by rw [h2]
      rw [this]
      exact Nat.lt_succ_self _
    · exact Nat.lt_succ_of_lt (g.runs_fresh x h2)
  · intro x hx
    rcases mem_upsertKV hx with h2 | h2
    · rw [h2]
      exact htidk
    · exact g.tournaments_keyed x h2
  · intro x hx
    rcases mem_upsertKV hx with h2 | h2
    · obtain ⟨t1, ht1⟩ := lookupKV_some_of_isSome hmapSome
      have : x.1 = tid := by rw [h2]
      rw [this]
      exact g.tournaments_bounded (tid, t1) (mem_of_lookupKV_eq ht1)
    · exact g.tournaments_bounded x h2
  · intro t0 h
    simp only [Option.some.injEq] at h
    rw [← h]
    exact htid1
  · intro t0 h
    simp only [Option.some.injEq] at h
    refine ⟨t', ?_, by rw [← h]⟩
    rw [← h, htidk]
    exact lookupKV_upsert_self _ _ _
  · intro x hx
    obtain ⟨tr, h1, h2, h3⟩ := g.rewards_ended x hx
    refine ⟨tr, ?_, h2, h3⟩
    rw [lookupKV_upsert_ne _ _ _ _ (hNoTid x hx)]
    exact h1
  · intro x hx
    rcases mem_upsertKV hx with h2 | h2
    · have : x.2.wallet_address = w := by rw [h2, hrw]
      rw [this]
      simp [lookupKV_upsert_self]
    · exact lookupKV_isSome_upsert _ _ (g.runs_have_player x h2)
  · intro x hx hc
    exact lookupKV_isSome_upsert _ _ (g.claimed_have_player x hx hc)
  · intro x hx
    exact lookupKV_isSome_upsert _ _ (g.bindings_have_player x hx)
  · intro x hx
    rcases (mem_upsertKV_iff g.players_nodup).mp hx with h2 | ⟨h2, h3⟩
    · rw [h2]
      show player'.total_xp
        = sumRunXp (upsertKV s.runs s.next_run_id run) w
          + sumRewardClaimed s.rewards w
      have hsum : sumRunXp (upsertKV s.runs s.next_run_id run) w
          = sumRunXp s.runs w + xp := by
        unfold sumRunXp
        rw [sumBy_upsert_lookup_none _ _ hfresh]
        simp [hrw, hrx]
      rw [hsum]
      cases hP : lookupKV s.players w with
      | some p =>
          have hpx2 : player'.total_xp = p.total_xp + xp := by
            rw [hpx, hP]
          have hled : p.total_xp
              = sumRunXp s.runs w + sumRewardClaimed s.rewards w :=
            g.xp_ledger (w, p) (mem_of_lookupKV_eq hP)
          omega
      | none =>
          have hpx2 : player'.total_xp = 0 + xp := by
            rw [hpx, hP]
          have hr0 : sumRunXp s.runs w = 0 := by
            refine sumBy_eq_zero ?_
            intro x2 hx2
            by_cases h5 : x2.2.wallet_address = w
            · have := g.runs_have_player x2 hx2
              rw [h5, hP] at this
              exact absurd this (by simp)
            · simp [h5]
          have hc0 : sumRewardClaimed s.rewards w = 0 := by
            refine sumBy_eq_zero ?_
            intro x2 hx2
            by_cases h5 : x2.2.wallet_address = w
            · by_cases h6 : x2.2.claimed = true
              · have := g.claimed_have_player x2 hx2 h6
                rw [h5, hP] at this
                exact absurd this (by simp)
              · simp [h5, h6]
            · simp [h5]
          omega
    · show x.2.total_xp
        = sumRunXp (upsertKV s.runs s.next_run_id run) x.1
          + sumRewardClaimed s.rewards x.1
      have hsum : sumRunXp (upsertKV s.runs s.next_run_id run) x.1
          = sumRunXp s.runs x.1 := by
        unfold sumRunXp
        rw [sumBy_upsert_lookup_none _ _ hfresh]
        have hne : ¬ run.wallet_address = x.1 := by
          rw [hrw]
          exact fun hh => h3 hh.symm
        simp [hne]
      rw [hsum]
      exact g.xp_ledger x h2
  · intro x hx
    rcases mem_upsertKV hx with h2 | h2
    · rw [h2]
      exact hlb
    · exact g.lb_inv x h2

theorem goodState_msg (m : ApplyRunMessage) (now : Nat) {s : LabyrinthState}
    (g : GoodState s now) : GoodState (execute_message m now s) now := by
  unfold execute_message
  split
  · exact g
  next tournament0 hReg =>
    split
    next hId => exact g
    next hId =>
      split
      next hSt => exact g
      next hSt =>
        split
        next hTime => exact g
        next hTime =>
          have hIdEq : tournament0.id = m.tournament_id := not_not.mp hId
          have hStEq : tournament0.status = TournamentStatus.active :=
            not_not.mp hSt
          have hNow : now < tournament0.end_time := Nat.lt_of_not_le hTime
          obtain ⟨t1, hSync, hEnd⟩ := g.active_sync tournament0 hReg
          have hNoTid : ∀ x ∈ s.rewards, x.1.1 ≠ m.tournament_id := by
            intro x hx heq
            obtain ⟨tr, h1, h2, h3⟩ := g.rewards_ended x hx
            rw [heq, ← hIdEq, hSync] at h1
            simp only [Option.some.injEq] at h1
            rw [← h1] at h3
            omega
          refine goodState_applyBody m.tournament_id m.wallet_address _ _ _ _
            _ _ _ _ g rfl rfl ?_ ?_ ?_ hNoTid
            (lbinv_updateLeaderboard _ _ _ _) ?_
          · exact g.active_id_one tournament0 hReg
          · exact hIdEq
          · rw [← hIdEq, hSync]
            rfl
          · cases hP : lookupKV s.players m.wallet_address <;> simp [hP]

theorem goodState_op (sg : Option AccountOwner) (op : Operation) (now : Nat)
    {s : LabyrinthState} (g : GoodState s now) :
    GoodState (execute_operation sg op now s).1 now := by
  unfold execute_operation
  cases sg with
  | none => exact g
  | some sg' =>
      cases op with
      | registerPlayer wallet username =>
          exact goodState_register sg' wallet username now now g
      | submitRun tid time score coins deaths completed =>
          exact goodState_submit sg' tid time score coins deaths completed
            now now g
      | createTournament title desc seed diff dur pool =>
          exact goodState_create sg' title desc seed diff dur pool now now g
      | endTournament tid => exact goodState_end sg' tid now g
      | claimReward tid => exact goodState_claim sg' tid now g
      | bootstrapTournament => exact goodState_bootstrap now g

theorem reachable_good {s : LabyrinthState} {t : Nat} (h : Reachable s t) :
    GoodState s t := by
  induction h with
  | init hub t0 => exact goodState_init hub t0
  | step_op s0 t t' sg op hr hle ih =>
      exact goodState_op sg op t' (goodState_mono ih hle)
  | step_msg s0 t t' m hr hle ih =>
      exact goodState_msg m t' (goodState_mono ih hle)

/-! Drop behavior of the ApplyRun message handler. -/

theorem execute_message_no_active (m : ApplyRunMessage) (now : Nat)
    {s : LabyrinthState} (h : s.active_tournament = none) :
    execute_message m now s = s := by
  unfold execute_message
  split
  · rfl
  next t1 h3 =>
      rw [h] at h3
      exact absurd h3 (by simp)

theorem execute_message_wrong_id (m : ApplyRunMessage) (now : Nat)
    {s : LabyrinthState} (t0 : Tournament) (h : s.active_tournament = some t0)
    (h2 : t0.id ≠ m.tournament_id) : execute_message m now s = s := by
  unfold execute_message
  split
  · rfl
  next t1 h3 =>
      rw [h] at h3
      simp only [Option.some.injEq] at h3
      split
      · rfl
      next h4 =>
          refine absurd ?_ h2
          rw [h3]
          exact not_not.mp h4

theorem apply_dropped_from (s s2 : LabyrinthState) (m2 : ApplyRunMessage)
    (now' : Nat) (hreg : s2.active_tournament = s.active_tournament)
    (hmt : ∀ t0, s.active_tournament = some t0 → t0.id ≠ m2.tournament_id) :
    execute_message m2 now' s2 = s2 := by
  cases hA : s.active_tournament with
  | none => exact execute_message_no_active m2 now' (hreg.trans hA)
  | some t0 => exact execute_message_wrong_id m2 now' t0 (hreg.trans hA) (hmt t0 hA)

/-- C1 counterexample: from the instantiation state, a SubmitRun whose
preconditions (authenticated 20-byte signer, tournament 1 exists, Active,
before end time) are all met returns Response.Ok, not a RunSubmitted
response carrying run id, xp, new-best and rank. -/
theorem c1_counterexample :
    (lookupKV baseState.tournaments 1).isSome = true
    ∧ (lookupKV baseState.tournaments 1).map Tournament.status
        = some TournamentStatus.active
    ∧ 1000 < (defaultChampionship 0).end_time
    ∧ c1Exec.2.1 = Response.ok
    ∧ c1Exec.2.1.isRunSubmitted = false := by
  refine ⟨rfl, rfl, by decide, rfl, rfl⟩

/-- C1 (amended): for every SubmitRun whose caller resolves to a wallet
(bound signer, or a signer in 20-byte address form), the operation returns
Response.Ok and sends an ApplyRun message; the run id, xp, new-best flag
and rank are not returned, because all state mutation is deferred to the
message handler.  The RunSubmitted response variant is never produced. -/
theorem c1_submit_returns_ok :
    ∀ (sg : AccountOwner) (tid time_ms score coins deaths : Nat)
      (completed : Bool) (now : Nat) (s : LabyrinthState),
      ((lookupKV s.signer_to_wallet sg).isSome = true
        ∨ ∃ a, sg = AccountOwner.address20 a) →
      (submit_run sg tid time_ms score coins deaths completed now s).2.1
          = Response.ok
      ∧ (submit_run sg tid time_ms score coins deaths completed now s).2.2
          ≠ none := by
  intro sg tid time_ms score coins deaths completed now s h
  cases hb : get_wallet_for_signer s sg with
  | some w =>
      rw [submit_run_eq_found tid time_ms score coins deaths completed now hb,
        submit_run_send_eq]
      exact ⟨rfl, by simp⟩
  | none =>
      rcases h with h1 | ⟨a, rfl⟩
      · rw [show get_wallet_for_signer s sg
            = lookupKV s.signer_to_wallet sg from rfl] at hb
        rw [hb] at h1
        exact absurd h1 (by simp)
      · rw [submit_run_eq_auto tid time_ms score coins deaths completed now hb,
          submit_run_send_eq]
        exact ⟨rfl, by simp⟩

/-- C1 witness. -/
theorem c1_submit_returns_ok_witness :
    (submit_run sgA 1 60000 500 10 0 true 1000 baseState).2.1 = Response.ok
    ∧ (submit_run sgA 1 60000 500 10 0 true 1000 baseState).2.2 ≠ none :=
  c1_submit_returns_ok sgA 1 60000 500 10 0 true 1000 baseState
    (Or.inr ⟨wA, rfl⟩)

/-- C2 counterexample: a SubmitRun naming tournament id 999, for which no
tournament exists, does NOT fail with TournamentNotFound: it returns
Response.Ok, creates a Player row for the caller's wallet and writes the
signer-to-wallet binding (no GameRun is recorded, but state is mutated). -/
theorem c2_counterexample :
    lookupKV baseState.tournaments 999 = none
    ∧ c2Exec.2.1 = Response.ok
    ∧ lookupKV baseState.players wA = none
    ∧ (lookupKV c2Exec.1.players wA).isSome = true
    ∧ lookupKV c2Exec.1.signer_to_wallet sgA = some wA := by
  refine ⟨rfl, rfl, rfl, rfl, rfl⟩

/-- C2 (amended): a SubmitRun naming a tournament id different from the id
held in the active_tournament register (in particular any id for which no
tournament exists) still returns Response.Ok; it may bind the signer and
create a Player row, but it writes no GameRun, no tournament, leaderboard,
tournament-player, reward or recent-run state, and the ApplyRun message it
sends is dropped by the message handler without any further effect. -/
theorem c2_submit_missing_tournament :
    ∀ (sg : AccountOwner) (tid time_ms score coins deaths : Nat)
      (completed : Bool) (now now' : Nat) (s : LabyrinthState),
      ((lookupKV s.signer_to_wallet sg).isSome = true
        ∨ ∃ a, sg = AccountOwner.address20 a) →
      (∀ t0 : Tournament, s.active_tournament = some t0 → t0.id ≠ tid) →
      (submit_run sg tid time_ms score coins deaths completed now s).2.1
          = Response.ok
      ∧ (submit_run sg tid time_ms score coins deaths completed now s).1.runs
          = s.runs
      ∧ (submit_run sg tid time_ms score coins deaths completed now s).1.tournaments
          = s.tournaments
      ∧ (submit_run sg tid time_ms score coins deaths completed now s).1.leaderboards
          = s.leaderboards
      ∧ (submit_run sg tid time_ms score coins deaths completed now s).1.tournament_players
          = s.tournament_players
      ∧ (submit_run sg tid time_ms score coins deaths completed now s).1.rewards
          = s.rewards
      ∧ (submit_run sg tid time_ms score coins deaths completed now s).1.recent_runs
          = s.recent_runs
      ∧ (submit_run sg tid time_ms score coins deaths completed now s).1.next_run_id
          = s.next_run_id
      ∧ (submit_run sg tid time_ms score coins deaths completed now s).1.active_tournament
          = s.active_tournament
      ∧ (∀ m2 : ApplyRunMessage,
          (submit_run sg tid time_ms score coins deaths completed now s).2.2
            = some m2 →
          execute_message m2 now'
              (submit_run sg tid time_ms score coins deaths completed now s).1
            = (submit_run sg tid time_ms score coins deaths completed now s).1) := by
  intro sg tid time_ms score coins deaths completed now now' s hres hmt
  cases hb : get_wallet_for_signer s sg with
  | some w =>
      rw [submit_run_eq_found tid time_ms score coins deaths completed now hb,
        submit_run_send_eq]
      cases hp : lookupKV s.players w with
      | some player =>
          rw [get_or_create_player_eq_some sg "" now hp]
          refine ⟨rfl, rfl, rfl, rfl, rfl, rfl, rfl, rfl, rfl, ?_⟩
          intro m2 hm2
          simp only [Option.some.injEq] at hm2
          refine apply_dropped_from s _ m2 now' rfl ?_
          intro t0 hA0
          rw [← hm2]
          exact hmt t0 hA0
      | none =>
          rw [get_or_create_player_eq_none sg "" now hp]
          refine ⟨rfl, rfl, rfl, rfl, rfl, rfl, rfl, rfl, rfl, ?_⟩
          intro m2 hm2
          simp only [Option.some.injEq] at hm2
          refine apply_dropped_from s _ m2 now' rfl ?_
          intro t0 hA0
          rw [← hm2]
          exact hmt t0 hA0
  | none =>
      rcases hres with h1 | ⟨a, rfl⟩
      · rw [show get_wallet_for_signer s sg
            = lookupKV s.signer_to_wallet sg from rfl] at hb
        rw [hb] at h1
        exact absurd h1 (by simp)
      · rw [submit_run_eq_auto tid time_ms score coins deaths completed now hb,
          submit_run_send_eq]
        cases hp : lookupKV s.players a with
        | some player =>
            have hp1 : lookupKV
                (LabyrinthState.players
                  { s with signer_to_wallet := upsertKV s.signer_to_wallet (AccountOwner.address20 a) a })
                a = some player := hp
            rw [get_or_create_player_eq_some _ "" now hp1]
            refine ⟨rfl, rfl, rfl, rfl, rfl, rfl, rfl, rfl, rfl, ?_⟩
            intro m2 hm2
            simp only [Option.some.injEq] at hm2
            refine apply_dropped_from s _ m2 now' rfl ?_
            intro t0 hA0
            rw [← hm2]
            exact hmt t0 hA0
        | none =>
            have hp1 : lookupKV
                (LabyrinthState.players
                  { s with signer_to_wallet := upsertKV s.signer_to_wallet (AccountOwner.address20 a) a })
                a = none := hp
            rw [get_or_create_player_eq_none _ "" now hp1]
            refine ⟨rfl, rfl, rfl, rfl, rfl, rfl, rfl, rfl, rfl, ?_⟩
            intro m2 hm2
            simp only [Option.some.injEq] at hm2
            refine apply_dropped_from s _ m2 now' rfl ?_
            intro t0 hA0
            rw [← hm2]
            exact hmt t0 hA0

/-- C2 witness. -/
theorem c2_submit_missing_tournament_witness :
    (submit_run sgA 999 60000 500 10 0 true 1000 baseState).2.1 = Response.ok
    ∧ (submit_run sgA 999 60000 500 10 0 true 1000 baseState).1.runs
        = baseState.runs :=
  ⟨(c2_submit_missing_tournament sgA 999 60000 500 10 0 true 1000 2000
      baseState (Or.inr ⟨wA, rfl⟩)
      (by intro t0 h; simp [baseState, instantiateState] at h; rw [← h]; decide)).1,
    (c2_submit_missing_tournament sgA 999 60000 500 10 0 true 1000 2000
      baseState (Or.inr ⟨wA, rfl⟩)
      (by intro t0 h; simp [baseState, instantiateState] at h; rw [← h]; decide)).2.1⟩

/-- C3 counterexample: after a run worth 250 XP and a successful
EndTournament that distributes a 4000-XP reward to the winner, the
winner's Player.total_xp is still 250: it does not equal the sum of run
XP plus distributed reward XP (250 + 4000), so EndTournament does not
credit total_xp immediately. -/
theorem c3_counterexample :
    (lookupKV c3S3.players wA).map Player.total_xp = some 250
    ∧ (lookupKV c3S3.rewards (1, wA)).map TournamentReward.xp_amount
        = some 4000
    ∧ (lookupKV c3S3.rewards (1, wA)).map TournamentReward.claimed
        = some false
    ∧ (lookupKV c3S3.players wA).map Player.total_xp
        ≠ some (sumRunXp c3S3.runs wA + sumRewardAll c3S3.rewards wA) := by
  refine ⟨rfl, rfl, rfl, by decide⟩

/-- C3 (amended): after every committed operation, every player's total_xp
equals the sum of xp_earned over the player's GameRun rows plus the sum of
xp_amount over the player's CLAIMED TournamentReward rows.  EndTournament
inserts rewards unclaimed and leaves total_xp unchanged; the credit
happens when ClaimReward flips the claimed flag. -/
theorem c3_xp_ledger_claimed :
    ∀ (s : LabyrinthState) (t : Nat), Reachable s t →
      ∀ (w : Wallet) (p : Player), lookupKV s.players w = some p →
        p.total_xp = sumRunXp s.runs w + sumRewardClaimed s.rewards w := by
  intro s t h w p hp
  exact (reachable_good h).xp_ledger (w, p) (mem_of_lookupKV_eq hp)

/-- C3 witness: the ledger equation evaluated on a concrete reachable
trace (submit, apply, end, claim), where total_xp = 250 + 4000. -/
theorem c3_xp_ledger_claimed_witness :
    (lookupKV c3S4.players wA).map Player.total_xp
      = some (sumRunXp c3S4.runs wA + sumRewardClaimed c3S4.rewards wA) := by
  have h := c3_xp_ledger_claimed c3S4 1296000000000
    (Reachable.step_op c3S3 1296000000000 1296000000000 (some sgA)
      (.claimReward 1)
      (Reachable.step_op c3S2 200 1296000000000 (some sgA) (.endTournament 1)
        (Reachable.step_msg c3S1 100 200 c3Msg
          (Reachable.step_op baseState 0 100 (some sgA)
            (.submitRun 1 60000 500 10 0 true)
            (Reachable.init "hub" 0) (by omega))
          (by omega))
        (by omega))
      (by omega))
  cases hl : lookupKV c3S4.players wA with
  | none => exact absurd hl (by decide)
  | some p =>
      show some p.total_xp
        = some (sumRunXp c3S4.runs wA + sumRewardClaimed c3S4.rewards wA)
      rw [h wA p hl]

theorem usernameConsistent_insert (w : Wallet) (p : Player) (u : String)
    (b : List (AccountOwner × Wallet)) {s : LabyrinthState}
    (hc : UsernameConsistent s) (hpw : lookupKV s.players w = none)
    (hu : lookupKV s.username_to_wallet u = none) (hpu : p.username = u) :
    UsernameConsistent
      { s with
          players := upsertKV s.players w p
          username_to_wallet := upsertKV s.username_to_wallet u w
          signer_to_wallet := b } := by
  constructor
  · intro x hx
    rcases mem_upsertKV hx with h2 | h2
    · rw [h2]
      show lookupKV (upsertKV s.username_to_wallet u w) p.username = some w
      rw [hpu]
      exact lookupKV_upsert_self _ _ _
    · have hold := hc.1 x h2
      have hne : x.2.username ≠ u := by
        intro he
        rw [he, hu] at hold
        exact absurd hold (by simp)
      show lookupKV (upsertKV s.username_to_wallet u w) x.2.username = some x.1
      rw [lookupKV_upsert_ne _ _ _ _ hne]
      exact hold
  · intro y hy
    rcases mem_upsertKV hy with h2 | h2
    · refine ⟨p, ?_, ?_⟩
      · rw [h2]
        exact lookupKV_upsert_self _ _ _
      · rw [h2, hpu]
    · obtain ⟨p2, hp2, hpu2⟩ := hc.2 y h2
      have hne : y.2 ≠ w := by
        intro he
        rw [he, hpw] at hp2
        exact absurd hp2 (by simp)
      refine ⟨p2, ?_, hpu2⟩
      show lookupKV (upsertKV s.players w p) y.2 = some p2
      rw [lookupKV_upsert_ne _ _ _ _ hne]
      exact hp2

/-- C4 counterexample: two distinct wallets sharing their first 4 bytes
are both auto-registered through SubmitRun; both Player rows carry the
username Player_00000000 while the username index maps that name only to
the second wallet, so usernames are not globally unique and the reverse
map is inconsistent with the Player rows. -/
theorem c4_counterexample :
    (lookupKV c4S2.players wA).map Player.username = some "Player_00000000"
    ∧ (lookupKV c4S2.players wB).map Player.username = some "Player_00000000"
    ∧ wA ≠ wB
    ∧ lookupKV c4S2.username_to_wallet "Player_00000000" = some wB := by
  refine ⟨rfl, rfl, by decide, rfl⟩

/-- C4 (amended): RegisterPlayer preserves username uniqueness and index
consistency unconditionally, and the auto-registration path
(get_or_create_player) preserves them only when the synthesized default
username Player_(first-4-bytes-hex) is not already in the username index;
two wallets sharing their first 4 bytes violate this freshness condition
and break uniqueness. -/
theorem c4_username_uniqueness_guarded :
    (∀ (sg : AccountOwner) (w : Wallet) (u : String) (now : Nat)
        (s : LabyrinthState), UsernameConsistent s →
        UsernameConsistent (register_player sg w u now s).1)
    ∧ (∀ (sg : AccountOwner) (w : Wallet) (d : String) (now : Nat)
        (s : LabyrinthState), UsernameConsistent s →
        (lookupKV s.players w = none →
          lookupKV s.username_to_wallet (defaultUsername w) = none) →
        UsernameConsistent (get_or_create_player sg w d now s).2) := by
  constructor
  · intro sg w u now s hc
    unfold register_player
    by_cases h1 : containsKey s.players w = true
    · rw [if_pos h1]
      exact hc
    · rw [if_neg h1]
      by_cases h2 : containsKey s.username_to_wallet u = true
      · rw [if_pos h2]
        exact hc
      · rw [if_neg h2]
        have hpw : lookupKV s.players w = none := by
          cases hv : lookupKV s.players w with
          | none => rfl
          | some v => exact absurd (by simp [containsKey, hv]) h1
        have hu : lookupKV s.username_to_wallet u = none := by
          cases hv : lookupKV s.username_to_wallet u with
          | none => rfl
          | some v => exact absurd (by simp [containsKey, hv]) h2
        exact usernameConsistent_insert w _ u _ hc hpw hu rfl
  · intro sg w d now s hc hfresh
    cases hp : lookupKV s.players w with
    | some player =>
        rw [get_or_create_player_eq_some sg d now hp]
        exact hc
    | none =>
        rw [get_or_create_player_eq_none sg d now hp]
        exact usernameConsistent_insert w _ (defaultUsername w) _ hc hp
          (hfresh hp) rfl

/-- C4 witness. -/
theorem c4_username_uniqueness_guarded_witness :
    UsernameConsistent (register_player sgA wA "alice" 0 emptyState).1
    ∧ UsernameConsistent (get_or_create_player sgB wB "" 0 emptyState).2 := by
  have hempty : UsernameConsistent emptyState :=
    ⟨fun x hx => absurd hx (by simp [emptyState]),
     fun y hy => absurd hy (by simp [emptyState])⟩
  exact ⟨c4_username_uniqueness_guarded.1 sgA wA "alice" 0 emptyState hempty,
    c4_username_uniqueness_guarded.2 sgB wB "" 0 emptyState hempty
      (fun _ => rfl)⟩

/-- C5: for every difficulty, time_ms within u64 and deaths within u32,
the source XP calculation evaluated with u64 wrap-around equals the
specification's five-step formula in exact unsigned arithmetic (hence no
intermediate overflow occurs), and Medium with time_ms 60000, 0 deaths,
completed yields 250. -/
theorem c5_calculate_xp_correct :
    (∀ (d : Difficulty) (time_ms deaths : Nat) (completed : Bool),
        time_ms < 2 ^ 64 → deaths < 2 ^ 32 →
        d.calculate_xp_u64 time_ms deaths completed
            = calculate_xpSpec d time_ms deaths completed
          ∧ d.calculate_xp_u64 time_ms deaths completed
            = d.calculate_xp time_ms deaths completed)
    ∧ Difficulty.calculate_xp .medium 60000 0 true = 250 := by
  refine ⟨?_, rfl⟩
  intro d time_ms deaths completed h64 h32
  have h := calculate_xp_u64_eq_exact d time_ms deaths completed h64 h32
  have h2 : d.calculate_xp time_ms deaths completed
      = calculate_xpSpec d time_ms deaths completed := rfl
  exact ⟨h.trans h2, h⟩

/-- C5 witness. -/
theorem c5_calculate_xp_correct_witness :
    Difficulty.calculate_xp_u64 .medium 60000 0 true
      = calculate_xpSpec .medium 60000 0 true :=
  (c5_calculate_xp_correct.1 .medium 60000 0 true (by norm_num)
    (by norm_num)).1

/-- C6 counterexample: CreateTournament with duration_days = 0 does not
fail with InvalidDuration; it succeeds with a TournamentCreated response
and inserts the tournament (with end_time equal to start_time). -/
theorem c6_counterexample :
    c6Exec.2.1 = Response.tournamentCreated 2 "seed" 50
    ∧ (lookupKV c6Exec.1.tournaments 2).isSome = true
    ∧ (lookupKV c6Exec.1.tournaments 2).map Tournament.end_time = some 50
    ∧ (lookupKV c6Exec.1.tournaments 2).map Tournament.start_time = some 50 := by
  refine ⟨rfl, rfl, rfl, rfl⟩

/-- C6 (amended): CreateTournament performs no duration validation.  With
duration_days = 0 it succeeds, returning TournamentCreated with end_time
equal to now, and inserts an Active tournament whose start_time equals its
end_time (immediately expired for submissions), allocating the next id. -/
theorem c6_create_zero_duration :
    ∀ (sg : AccountOwner) (title desc seed : String) (diff : Difficulty)
      (pool now : Nat) (s : LabyrinthState),
      (create_tournament sg title desc seed diff 0 pool now s).2
          = Response.tournamentCreated s.next_tournament_id seed now
      ∧ lookupKV (create_tournament sg title desc seed diff 0 pool now s).1.tournaments
            s.next_tournament_id
          = some { id := s.next_tournament_id
                   title := title
                   description := desc
                   maze_seed := seed
                   difficulty := diff
                   start_time := now
                   end_time := now
                   status := TournamentStatus.active
                   participant_count := 0
                   total_runs := 0
                   xp_reward_pool := pool
                   created_at := now }
      ∧ (create_tournament sg title desc seed diff 0 pool now s).1.next_tournament_id
          = s.next_tournament_id + 1 := by
  intro sg title desc seed diff pool now s
  unfold create_tournament
  refine ⟨rfl, ?_, rfl⟩
  exact lookupKV_upsert_self _ _ _

theorem distributeRewards_lookup_outside (tid pool : Nat)
    (entries : List LeaderboardEntry) :
    ∀ (i : Nat) (ps : List (Wallet × Player))
      (rs : List ((Nat × Wallet) × TournamentReward)) (key : Nat × Wallet),
      key.2 ∉ entries.map LeaderboardEntry.wallet_address →
      lookupKV (distributeRewards tid pool i entries ps rs).2.1 key
        = lookupKV rs key := by
  induction entries with
  | nil => intro i ps rs key _; rfl
  | cons e rest ih =>
      intro i ps rs key hkey
      simp only [List.map_cons, List.mem_cons] at hkey
      push_neg at hkey
      simp only [distributeRewards]
      rw [ih (i + 1) _ _ key (by exact hkey.2)]
      refine lookupKV_upsert_ne _ _ _ _ ?_
      intro hh
      exact hkey.1 (by rw [hh])

theorem distributeRewards_lookup_at (tid pool : Nat)
    (entries : List LeaderboardEntry) :
    ∀ (i : Nat) (ps : List (Wallet × Player))
      (rs : List ((Nat × Wallet) × TournamentReward)),
      (entries.map LeaderboardEntry.wallet_address).Nodup →
      ∀ (j : Nat) (h : j < entries.length),
        lookupKV (distributeRewards tid pool i entries ps rs).2.1
            (tid, (entries.get ⟨j, h⟩).wallet_address)
          = some { tournament_id := tid
                   wallet_address := (entries.get ⟨j, h⟩).wallet_address
                   rank := (entries.get ⟨j, h⟩).rank
                   xp_amount := pool * rewardPercentages.getD (i + j) 0 / 100
                   claimed := false } := by
  induction entries with
  | nil => intro i ps rs _ j h; simp at h
  | cons e rest ih =>
      intro i ps rs hnd j h
      simp only [List.map_cons, List.nodup_cons] at hnd
      cases j with
      | zero =>
          have hget : ((e :: rest).get ⟨0, h⟩) = e := rfl
          rw [hget]
          simp only [distributeRewards]
          rw [distributeRewards_lookup_outside tid pool rest (i + 1) _ _
            (tid, e.wallet_address) (by exact hnd.1)]
          rw [lookupKV_upsert_self]
          rfl
      | succ j' =>
          have h2 : j' < rest.length := Nat.lt_of_succ_lt_succ h
          have hget : ((e :: rest).get ⟨j' + 1, h⟩) = rest.get ⟨j', h2⟩ := rfl
          rw [hget]
          simp only [distributeRewards]
          rw [ih (i + 1) _ _ hnd.2 j' h2]
          have harith : i + 1 + j' = i + (j' + 1) := by omega
          rw [harith]

theorem distributeRewards_players_pos (tid pool : Nat)
    (entries : List LeaderboardEntry) :
    ∀ (i : Nat), 1 ≤ i →
      ∀ (ps : List (Wallet × Player))
        (rs : List ((Nat × Wallet) × TournamentReward)),
        (distributeRewards tid pool i entries ps rs).1 = ps := by
  induction entries with
  | nil => intro i _ ps rs; rfl
  | cons e rest ih =>
      intro i hi ps rs
      simp only [distributeRewards]
      rw [if_neg (by omega)]
      exact ih (i + 1) (by omega) _ _

theorem distributeRewards_players_zero (tid pool : Nat)
    (e : LeaderboardEntry) (rest : List LeaderboardEntry)
    (ps : List (Wallet × Player))
    (rs : List ((Nat × Wallet) × TournamentReward)) :
    (distributeRewards tid pool 0 (e :: rest) ps rs).1
      = match lookupKV ps e.wallet_address with
        | some player =>
            upsertKV ps e.wallet_address
              { player with tournaments_won := player.tournaments_won + 1 }
        | none => ps := by
  simp only [distributeRewards, if_pos rfl]
  exact distributeRewards_players_pos tid pool rest 1 (by omega) _ _

theorem c7_core (tid : Nat) (s : LabyrinthState)
    (t : Tournament) (lb : List LeaderboardEntry)
    (hnd : ((lb.take 5).map LeaderboardEntry.wallet_address).Nodup) :
    Response.tournamentEnded tid
        (distributeRewards tid t.xp_reward_pool 0 (lb.take 5) s.players
          s.rewards).2.2
      = Response.tournamentEnded tid (min 5 lb.length)
    ∧ (∀ (j : Nat) (h : j < (lb.take 5).length),
        lookupKV (distributeRewards tid t.xp_reward_pool 0 (lb.take 5)
              s.players s.rewards).2.1
            (tid, ((lb.take 5).get ⟨j, h⟩).wallet_address)
          = some { tournament_id := tid
                   wallet_address := ((lb.take 5).get ⟨j, h⟩).wallet_address
                   rank := ((lb.take 5).get ⟨j, h⟩).rank
                   xp_amount := t.xp_reward_pool * rewardPercentages.getD j 0 / 100
                   claimed := false })
    ∧ (∀ w : Wallet,
        (∀ h0 : 0 < (lb.take 5).length,
          w ≠ ((lb.take 5).get ⟨0, h0⟩).wallet_address) →
        lookupKV (distributeRewards tid t.xp_reward_pool 0 (lb.take 5)
              s.players s.rewards).1 w
          = lookupKV s.players w)
    ∧ (∀ (h0 : 0 < (lb.take 5).length) (p : Player),
        lookupKV s.players ((lb.take 5).get ⟨0, h0⟩).wallet_address = some p →
        lookupKV (distributeRewards tid t.xp_reward_pool 0 (lb.take 5)
              s.players s.rewards).1
            ((lb.take 5).get ⟨0, h0⟩).wallet_address
          = some { p with tournaments_won := p.tournaments_won + 1 })
    ∧ lookupKV (upsertKV s.tournaments tid
          { t with status := TournamentStatus.ended }) tid
        = some { t with status := TournamentStatus.ended } := by
  refine ⟨?_, ?_, ?_, ?_, lookupKV_upsert_self _ _ _⟩
  · rw [distributeRewards_count]
    have hlen : (lb.take 5).length = min 5 lb.length := by
      rw [List.length_take]
    rw [hlen]
  · intro j h
    rw [distributeRewards_lookup_at tid t.xp_reward_pool (lb.take 5) 0
      s.players s.rewards hnd j h]
    have hz : (0 : Nat) + j = j := by omega
    rw [hz]
  · intro w
    cases hcase : lb.take 5 with
    | nil =>
        intro _
        rfl
    | cons e rest =>
        intro hw
        rw [distributeRewards_players_zero]
        have hne : w ≠ e.wallet_address := hw (by simp)
        cases hp : lookupKV s.players e.wallet_address with
        | some player => exact lookupKV_upsert_ne _ _ _ _ hne
        | none => rfl
  · cases hcase : lb.take 5 with
    | nil =>
        intro h0
        simp at h0
    | cons e rest =>
        intro h0 p hp
        rw [distributeRewards_players_zero]
        have hp2 : lookupKV s.players e.wallet_address = some p := hp
        rw [hp2]
        exact lookupKV_upsert_self _ _ _

/-- C7: when EndTournament succeeds on a tournament with an n-entry
leaderboard (with pairwise-distinct wallets) and pool p, the response is
TournamentEnded with winner_count = min 5 n; a TournamentReward row with
claimed = false and xp_amount = p * pct / 100 (pct drawn in order from
[40, 25, 15, 12, 8]) is inserted for each of the first min 5 n entries,
carrying that entry's rank; tournaments_won is incremented for the rank-1
player only; and the tournament row is marked Ended. -/
theorem c7_end_tournament_rewards :
    ∀ (sg : AccountOwner) (tid now : Nat) (s : LabyrinthState)
      (t : Tournament) (lb : List LeaderboardEntry),
      lookupKV s.tournaments tid = some t →
      t.status = TournamentStatus.active →
      t.end_time ≤ now →
      lookupKV s.leaderboards tid = some lb →
      ((lb.take 5).map LeaderboardEntry.wallet_address).Nodup →
      (end_tournament sg tid now s).2
          = Response.tournamentEnded tid (min 5 lb.length)
      ∧ (∀ (j : Nat) (h : j < (lb.take 5).length),
          lookupKV (end_tournament sg tid now s).1.rewards
              (tid, ((lb.take 5).get ⟨j, h⟩).wallet_address)
            = some { tournament_id := tid
                     wallet_address := ((lb.take 5).get ⟨j, h⟩).wallet_address
                     rank := ((lb.take 5).get ⟨j, h⟩).rank
                     xp_amount := t.xp_reward_pool * rewardPercentages.getD j 0 / 100
                     claimed := false })
      ∧ (∀ w : Wallet,
          (∀ h0 : 0 < (lb.take 5).length,
            w ≠ ((lb.take 5).get ⟨0, h0⟩).wallet_address) →
          lookupKV (end_tournament sg tid now s).1.players w
            = lookupKV s.players w)
      ∧ (∀ (h0 : 0 < (lb.take 5).length) (p : Player),
          lookupKV s.players ((lb.take 5).get ⟨0, h0⟩).wallet_address = some p →
          lookupKV (end_tournament sg tid now s).1.players
              ((lb.take 5).get ⟨0, h0⟩).wallet_address
            = some { p with tournaments_won := p.tournaments_won + 1 })
      ∧ lookupKV (end_tournament sg tid now s).1.tournaments tid
          = some { t with status := TournamentStatus.ended } := by
  intro sg tid now s t lb hT hActive hDue hLB hnd
  unfold end_tournament
  split
  next heq =>
      rw [hT] at heq
      exact absurd heq (by simp)
  next t2 heq =>
      rw [hT] at heq
      simp only [Option.some.injEq] at heq
      subst heq
      split
      next hE =>
          rw [hActive] at hE
          exact absurd hE (by decide)
      next hE =>
          split
          next hDue2 => omega
          next hDue2 =>
              have hlb2 : (lookupKV s.leaderboards tid).getD [] = lb := by
                rw [hLB]
                rfl
              rw [hlb2]
              exact c7_core tid s t lb hnd

/-- C7 witness: the spec's concrete scenario (3-entry leaderboard, pool
10000) gives rewards 4000/2500/1500 and one tournaments_won increment. -/
theorem c7_end_tournament_rewards_witness :
    (end_tournament sgA 1 1000 c7S).2 = Response.tournamentEnded 1 3
    ∧ lookupKV (end_tournament sgA 1 1000 c7S).1.rewards (1, wB)
        = some { tournament_id := 1
                 wallet_address := wB
                 rank := 2
                 xp_amount := 2500
                 claimed := false }
    ∧ lookupKV (end_tournament sgA 1 1000 c7S).1.players wA
        = some { c7PA with tournaments_won := 1 } := by
  have h := c7_end_tournament_rewards sgA 1 1000 c7S c7T [c7E1, c7E2, c7E3]
    rfl rfl (by decide) rfl (by decide)
  exact ⟨h.1, h.2.1 1 (by decide), h.2.2.2.1 (by decide) c7PA rfl⟩

/-- C8: after every committed operation (and message delivery), every
tournament's leaderboard holds at most 100 entries, is sorted ascending by
best_time_ms, and every entry's rank equals its 1-based position. -/
theorem c8_leaderboard_invariant :
    ∀ (s : LabyrinthState) (t : Nat), Reachable s t →
      ∀ (tid : Nat) (lb : List LeaderboardEntry),
        lookupKV s.leaderboards tid = some lb →
        lb.length ≤ 100 ∧ SortedByTime lb ∧ RanksDense lb := by
  intro s t h tid lb hlb
  exact (reachable_good h).lb_inv (tid, lb) (mem_of_lookupKV_eq hlb)

/-- C8 witness: the invariant evaluated on the concrete reachable state
after one applied run. -/
theorem c8_leaderboard_invariant_witness :
    c8lb.length ≤ 100 ∧ SortedByTime c8lb ∧ RanksDense c8lb :=
  c8_leaderboard_invariant c3S2 200
    (Reachable.step_msg c3S1 100 200 c3Msg
      (Reachable.step_op baseState 0 100 (some sgA)
        (.submitRun 1 60000 500 10 0 true)
        (Reachable.init "hub" 0) (by omega))
      (by omega))
    1 c8lb rfl

/-- C9 counterexample: after the (reachable) state in which tournament 1
has been ended, the active_tournament query returns the fixed default
tournament, which is not the row stored for its id in the tournaments map
of the committed state. -/
theorem c9_counterexample :
    activeTournamentQuery c9S = some getDefaultTournament
    ∧ lookupKV c9S.tournaments getDefaultTournament.id
        ≠ some getDefaultTournament
    ∧ (lookupKV c9S.tournaments 1).map Tournament.title
        = some "Labyrinth Legends Championship" := by
  refine ⟨rfl, by decide, rfl⟩

/-- C9 (amended): the tournament queries are pure functions of the
committed state; tournament(id) for id other than 1 returns only stored
rows, while active_tournament and tournament(1) return the stored row when
one exists and otherwise fall back to a fixed constant default tournament
that need not be present in the store. -/
theorem c9_query_fallback :
    ∀ s : LabyrinthState,
      (activeTournamentQuery s = some getDefaultTournament
        ∨ ∃ (id : Nat) (t : Tournament), s.active_tournament_id = some id
            ∧ lookupKV s.tournaments id = some t
            ∧ activeTournamentQuery s = some t)
      ∧ (∀ id : Nat, id ≠ 1 → tournamentQuery s id = lookupKV s.tournaments id)
      ∧ (tournamentQuery s 1 = some getDefaultTournament
        ∨ ∃ t : Tournament, lookupKV s.tournaments 1 = some t
            ∧ tournamentQuery s 1 = some t) := by
  intro s
  have hq : ∀ id : Nat, s.active_tournament_id = some id →
      activeTournamentQuery s
        = (match lookupKV s.tournaments id with
           | some t => some t
           | none => some getDefaultTournament) := by
    intro id h
    unfold activeTournamentQuery
    rw [h]
  refine ⟨?_, ?_, ?_⟩
  · cases h : s.active_tournament_id with
    | none =>
        refine Or.inl ?_
        unfold activeTournamentQuery
        rw [h]
    | some id =>
        rw [hq id h]
        cases h2 : lookupKV s.tournaments id with
        | none => exact Or.inl rfl
        | some t => exact Or.inr ⟨id, t, rfl, h2, rfl⟩
  · intro id hid
    unfold tournamentQuery
    rw [if_neg hid]
  · unfold tournamentQuery
    rw [if_pos rfl]
    cases h2 : lookupKV s.tournaments 1 with
    | none => exact Or.inl rfl
    | some t => exact Or.inr ⟨t, rfl, rfl⟩

/-- C9 witness. -/
theorem c9_query_fallback_witness :
    tournamentQuery baseState 2 = lookupKV baseState.tournaments 2 :=
  (c9_query_fallback baseState).2.1 2 (by decide)

/-- C10: an ApplyRun message whose tournament_id differs from the id of
the tournament in the active_tournament register (or arriving when that
register is empty) leaves the entire state unchanged; create_tournament
writes the tournaments map, the leaderboards map and active_tournament_id
but never the active_tournament register, so (from any reachable state)
runs submitted to a tournament it created are dropped without any effect
or error. -/
theorem c10_created_tournament_runs_dropped :
    (∀ (m : ApplyRunMessage) (now : Nat) (s : LabyrinthState),
        s.active_tournament = none → execute_message m now s = s)
    ∧ (∀ (m : ApplyRunMessage) (now : Nat) (s : LabyrinthState)
        (t0 : Tournament), s.active_tournament = some t0 →
        t0.id ≠ m.tournament_id → execute_message m now s = s)
    ∧ (∀ (sg : AccountOwner) (title desc seed : String) (diff : Difficulty)
        (dur pool now : Nat) (s : LabyrinthState),
        (create_tournament sg title desc seed diff dur pool now s).1.active_tournament
            = s.active_tournament
        ∧ (create_tournament sg title desc seed diff dur pool now s).1.active_tournament_id
            = some s.next_tournament_id
        ∧ (create_tournament sg title desc seed diff dur pool now s).2
            = Response.tournamentCreated s.next_tournament_id seed
                (now + dur * dayMicros))
    ∧ (∀ (s : LabyrinthState) (t : Nat), Reachable s t →
        ∀ (sg : AccountOwner) (title desc seed : String) (diff : Difficulty)
          (dur pool now now' : Nat) (m : ApplyRunMessage),
          m.tournament_id = s.next_tournament_id →
          execute_message m now'
              (create_tournament sg title desc seed diff dur pool now s).1
            = (create_tournament sg title desc seed diff dur pool now s).1) := by
  refine ⟨?_, ?_, ?_, ?_⟩
  · intro m now s h
    exact execute_message_no_active m now h
  · intro m now s t0 h h2
    exact execute_message_wrong_id m now t0 h h2
  · intro sg title desc seed diff dur pool now s
    exact ⟨rfl, rfl, rfl⟩
  · intro s t hr sg title desc seed diff dur pool now now' m hm
    have g := reachable_good hr
    refine apply_dropped_from s _ m now' rfl ?_
    intro t0 hA0
    have h1 : t0.id = 1 := g.active_id_one t0 hA0
    have h2 := g.next_tid_ge
    rw [h1, hm]
    omega

/-- C10 witness: from the instantiation state, a run naming the id of a
freshly created tournament (id 2) is dropped by the message handler. -/
theorem c10_created_tournament_runs_dropped_witness :
    execute_message c10M 70 c10S1 = c10S1 :=
  c10_created_tournament_runs_dropped.2.2.2 baseState 0
    (Reachable.init "hub" 0) sgA "t" "d" "s" .easy 1 500 50 70 c10M rfl
